import Mathlib

/-! Verification development for the splatoon3-assistant credential/refresh core.

Shallow embedding of:
- src/src/exceptions.py (error taxonomy)
- src/backend/src/api/splatnet3_api.py (_RefreshCycle, _RequestCycle, _request_lock,
  SplatNet3API._refresh_tokens, SplatNet3API.request, _can_auto_refresh)
- src/backend/src/nso_auth.py (NSOAuth: version getters, login_in_2, get_gtoken
  pipeline, get_bullet, call_f_api, f_decrypt_response)

Concurrency is modelled as the asyncio cooperative scheduler: each coroutine advances
in atomic blocks separated by its await points; a schedule (a list of caller indices)
chooses which coroutine runs its next block.  All network interactions are abstracted
into environments that give the outcome of the k-th occurrence of each remote call.
-/

deriving instance DecidableEq for Except

namespace S3A

/-- Exception values of the auth/refresh code.  The first four constructors embed the
exception classes of src/src/exceptions.py (SessionExpiredError, MembershipRequiredError,
BulletTokenError, TokenRefreshError); the rest embed the Python builtins the code raises
(ValueError, KeyError/TypeError on missing dict fields, json.JSONDecodeError, anything
else). -/
inductive Exc where
  | sessionExpired (msg : String)
  | membershipRequired (nickname : String)
  | bulletTokenExc (statusCode : Nat) (msg : String)
  | tokenRefreshExc (msg : String)
  | valueErr (msg : String)
  | keyErr (msg : String)
  | jsonDecodeErr (msg : String)
  | otherExc (msg : String)
  deriving DecidableEq, Repr

/-- BulletTokenError.__init__ (src/src/exceptions.py lines 52-65): an empty message is
replaced by the default message for the status code. -/
def bulletTokenDefaultMsg (statusCode : Nat) (msg : String) : String :=
  if msg = "" then
    if statusCode = 401 then "无效的 Game Web Token"
    else if statusCode = 403 then "应用版本过时，请更新"
    else if statusCode = 204 then "用户未在 SplatNet3 注册"
    else if statusCode = 499 then "用户已被封禁"
    else "Bullet Token 错误 (状态码: " ++ toString statusCode ++ ")"
  else msg

/-- Constructs a BulletTokenError value the way exceptions.py does. -/
def mkBulletTokenExc (statusCode : Nat) (msg : String) : Exc :=
  .bulletTokenExc statusCode (bulletTokenDefaultMsg statusCode msg)

/-- Python str(e) for each modelled exception (messages as built by exceptions.py). -/
def Exc.message : Exc → String
  | .sessionExpired m => m
  | .membershipRequired nickname =>
      if nickname = "" then "Nintendo Switch Online 会员已过期"
      else "账号 " ++ nickname ++ " 的 Nintendo Switch Online 会员已过期"
  | .bulletTokenExc _ m => m
  | .tokenRefreshExc m => m
  | .valueErr m => m
  | .keyErr m => m
  | .jsonDecodeErr m => m
  | .otherExc m => m

/-- The except-chain of SplatNet3API._refresh_tokens (splatnet3_api.py lines 298-316):
SessionExpiredError, MembershipRequiredError and BulletTokenError are stored and
re-raised verbatim; every other exception (including a TokenRefreshError raised inside
the try block) is wrapped into a fresh TokenRefreshError. -/
def classifyRefreshExc (e : Exc) : Exc :=
  match e with
  | .sessionExpired _ => e
  | .membershipRequired _ => e
  | .bulletTokenExc _ _ => e
  | _ => .tokenRefreshExc ("Token 刷新失败: " ++ e.message)

/-- Result of a successful NSOAuth.get_gtoken call (nso_auth.py line 270):
(access_token, g_token, nickname, lang, country, current_user). -/
structure GtokenData where
  accessToken : String
  gToken : String
  nickname : String
  lang : String
  country : String
  userInfo : String
  deriving DecidableEq, Repr

/-- The token_data dict built by _refresh_tokens on success (splatnet3_api.py
lines 285-294). -/
structure TokenData where
  sessionToken : String
  gToken : String
  bulletToken : String
  accessToken : String
  userLang : String
  userCountry : String
  userNickname : String
  userInfo : String
  deriving DecidableEq, Repr

/-- The mutable token fields of the SplatNet3API instance (self.access_token,
self.g_token, self.bullet_token, self.user_lang, self.user_country). -/
structure SelfTokens where
  accessToken : Option String
  gToken : Option String
  bulletToken : Option String
  userLang : String
  userCountry : String
  deriving DecidableEq, Repr

/-- A _RefreshCycle object (splatnet3_api.py lines 26-32): an asyncio.Event plus an
error slot, isolated per refresh attempt. -/
structure CycleSt where
  eventSet : Bool
  error : Option Exc
  deriving DecidableEq, Repr

/-- Outcome of one _refresh_tokens call: (True, token_data) for the executing caller,
(True, None) for a waiter, or a raised exception. -/
inductive RResult where
  | ok (tokenData : Option TokenData)
  | exc (e : Exc)
  deriving DecidableEq, Repr

/-- Program counter of one caller coroutine inside _refresh_tokens.  Atomic blocks are
separated by the coroutine's await points: the lock-guarded entry block, the awaited
get_gtoken call, the awaited get_bullet call, and the event wait. -/
inductive RPC where
  | entry
  | execGtoken (cyc : Nat)
  | execBullet (cyc : Nat) (gt : GtokenData)
  | waitCycle (cyc : Nat)
  | done (res : RResult)
  deriving DecidableEq, Repr

/-- Whether a caller's coroutine has completed. -/
def RPC.isDone : RPC → Bool
  | .done _ => true
  | _ => false

/-- Shared state of the Token Refresh Coordinator: the SplatNet3API instance fields
_is_refreshing, _current_cycle, the set of _RefreshCycle objects ever allocated
(identified by allocation order), the live token fields, plus ghost counters of how
many get_gtoken / get_bullet calls have been issued.  nextCycle is the id the next
allocated cycle will receive; pc gives each caller coroutine's program counter. -/
structure RState where
  isRefreshing : Bool
  currentCycle : Option Nat
  cycles : Nat → CycleSt
  nextCycle : Nat
  gtokenCalls : Nat
  bulletCalls : Nat
  selfTokens : SelfTokens
  pc : Nat → RPC

/-- Environment for refresh runs: the outcome of the k-th get_gtoken call and of the
k-th get_bullet call issued in the run (the whole awaited sub-exchange is abstracted
into its result; get_gtoken itself is modelled in detail further below). -/
structure RefreshEnv where
  gtokenRes : Nat → Except Exc GtokenData
  bulletRes : Nat → Except Exc String

/-- The token_data dict built at splatnet3_api.py lines 285-294. -/
def mkTokenData (sessionToken : String) (gt : GtokenData) (bullet : String) : TokenData :=
  { sessionToken := sessionToken
    gToken := gt.gToken
    bulletToken := bullet
    accessToken := gt.accessToken
    userLang := gt.lang
    userCountry := gt.country
    userNickname := gt.nickname
    userInfo := gt.userInfo }

/-- The error path of _refresh_tokens: the classified error is stored on the caller's
own cycle, and the finally block clears _is_refreshing and sets the cycle's event;
the caller's coroutine finishes by re-raising the stored error.  All of this happens
in one atomic block (no await separates it from the failed call's completion; the
optional on_session_expired callback, which the claims do not touch, is omitted). -/
def finalizeErr (s : RState) (i cyc : Nat) (e : Exc) : RState :=
  { s with cycles := Function.update s.cycles cyc ⟨true, some e⟩
           isRefreshing := false
           pc := Function.update s.pc i (.done (.exc e)) }

/-- One atomic block of caller i's _refresh_tokens coroutine (splatnet3_api.py
lines 210-322), under the asyncio cooperative scheduler.  canRefresh is the value of
_can_auto_refresh(); sessionToken is self.session_token; n bounds the caller indices.
A caller whose next block is not enabled (event not yet set) or whose coroutine is
finished is left unchanged. -/
def stepR (env : RefreshEnv) (canRefresh : Bool) (sessionToken : String) (n : Nat)
    (s : RState) (i : Nat) : RState :=
  if i < n then
    match s.pc i with
    | .entry =>
      if canRefresh = false then
        { s with pc := (Function.update s.pc i
            (.done (.exc (.tokenRefreshExc "无法自动刷新：缺少 NSOAuth 或 session_token")))) }
      else if s.isRefreshing then
        match s.currentCycle with
        | some c => { s with pc := Function.update s.pc i (.waitCycle c) }
        | none =>
          -- dead branch: _is_refreshing is set only together with a fresh _current_cycle
          { s with pc := (Function.update s.pc i
              (.done (.exc (.otherExc "unreachable: refreshing without current cycle")))) }
      else
        { s with isRefreshing := true
                 currentCycle := some s.nextCycle
                 cycles := Function.update s.cycles s.nextCycle ⟨false, none⟩
                 nextCycle := s.nextCycle + 1
                 pc := Function.update s.pc i (.execGtoken s.nextCycle) }
    | .execGtoken cyc =>
      let s1 := { s with gtokenCalls := s.gtokenCalls + 1 }
      match env.gtokenRes s.gtokenCalls with
      | .error e => finalizeErr s1 i cyc (classifyRefreshExc e)
      | .ok gt =>
        if gt.gToken = "" then
          finalizeErr s1 i cyc (classifyRefreshExc (.tokenRefreshExc "Failed to get g_token"))
        else
          { s1 with pc := Function.update s1.pc i (.execBullet cyc gt) }
    | .execBullet cyc gt =>
      let s1 := { s with bulletCalls := s.bulletCalls + 1 }
      match env.bulletRes s.bulletCalls with
      | .error e => finalizeErr s1 i cyc (classifyRefreshExc e)
      | .ok bullet =>
        if bullet = "" then
          finalizeErr s1 i cyc (classifyRefreshExc (.tokenRefreshExc "Failed to get bullet_token"))
        else
          { s1 with
              selfTokens := { accessToken := some gt.accessToken
                              gToken := some gt.gToken
                              bulletToken := some bullet
                              userLang := gt.lang
                              userCountry := gt.country }
              cycles := Function.update s1.cycles cyc ⟨true, none⟩
              isRefreshing := false
              pc := (Function.update s1.pc i
                (.done (.ok (some (mkTokenData sessionToken gt bullet))))) }
    | .waitCycle cyc =>
      if (s.cycles cyc).eventSet then
        match (s.cycles cyc).error with
        | some e => { s with pc := Function.update s.pc i (.done (.exc e)) }
        | none => { s with pc := Function.update s.pc i (.done (.ok none)) }
      else s
    | .done _ => s
  else s

/-- Initial coordinator state: no refresh in progress, no cycle allocated, every
caller about to enter _refresh_tokens. -/
def initR (t0 : SelfTokens) : RState :=
  { isRefreshing := false
    currentCycle := none
    cycles := fun _ => ⟨false, none⟩
    nextCycle := 0
    gtokenCalls := 0
    bulletCalls := 0
    selfTokens := t0
    pc := fun _ => .entry }

/-- Runs a schedule: at each position the named caller executes its next atomic block. -/
def runR (env : RefreshEnv) (canRefresh : Bool) (sessionToken : String) (n : Nat)
    (t0 : SelfTokens) (sch : List Nat) : RState :=
  sch.foldl (stepR env canRefresh sessionToken n) (initR t0)

/-- Continues a run from an arbitrary state. -/
def stepsR (env : RefreshEnv) (canRefresh : Bool) (sessionToken : String) (n : Nat)
    (s : RState) (sch : List Nat) : RState :=
  sch.foldl (stepR env canRefresh sessionToken n) s

/-- The outcome the single executing caller of the first refresh cycle computes, as a
function of the environment: the classified error, or the token_data dict. -/
def refreshOutcome (env : RefreshEnv) (sessionToken : String) : Except Exc TokenData :=
  match env.gtokenRes 0 with
  | .error e => .error (classifyRefreshExc e)
  | .ok gt =>
    if gt.gToken = "" then
      .error (classifyRefreshExc (.tokenRefreshExc "Failed to get g_token"))
    else
      match env.bulletRes 0 with
      | .error e => .error (classifyRefreshExc e)
      | .ok bullet =>
        if bullet = "" then
          .error (classifyRefreshExc (.tokenRefreshExc "Failed to get bullet_token"))
        else .ok (mkTokenData sessionToken gt bullet)

/-- Return value of the executing caller: (True, token_data) on success, the raised
classified error on failure. -/
def execResultOf : Except Exc TokenData → RResult
  | .ok td => .ok (some td)
  | .error e => .exc e

/-- Return value of a waiter on the cycle: (True, None) on success, the cycle's stored
error on failure. -/
def waiterResultOf : Except Exc TokenData → RResult
  | .ok _ => .ok none
  | .error e => .exc e

/-- The error slot the cycle ends with. -/
def errOf : Except Exc TokenData → Option Exc
  | .ok _ => none
  | .error e => some e

/-- How many get_bullet calls the first exchange issues (none when get_gtoken already
failed or returned an empty g_token). -/
def bulletCallsOf (env : RefreshEnv) : Nat :=
  match env.gtokenRes 0 with
  | .ok gt => if gt.gToken = "" then 0 else 1
  | .error _ => 0

/-- The instance token fields after a successful refresh with token_data td. -/
def tokensOf (td : TokenData) : SelfTokens :=
  { accessToken := some td.accessToken
    gToken := some td.gToken
    bulletToken := some td.bulletToken
    userLang := td.userLang
    userCountry := td.userCountry }

/-- Phase A of a single-cycle refresh run: nothing has happened yet. -/
def PhaseA (s : RState) : Prop :=
  s.isRefreshing = false ∧ s.currentCycle = none ∧ s.nextCycle = 0 ∧
  (∀ c, s.cycles c = ⟨false, none⟩) ∧ s.gtokenCalls = 0 ∧ s.bulletCalls = 0 ∧
  (∀ i, s.pc i = .entry)

/-- Phase B: cycle 0 is in flight; exactly one executor; everyone else is still at
entry or already waiting on cycle 0. -/
def PhaseB (env : RefreshEnv) (n : Nat) (s : RState) : Prop :=
  s.isRefreshing = true ∧ s.currentCycle = some 0 ∧ s.nextCycle = 1 ∧
  (∀ c, s.cycles c = ⟨false, none⟩) ∧ s.bulletCalls = 0 ∧
  ∃ e, e < n ∧
    ((s.pc e = .execGtoken 0 ∧ s.gtokenCalls = 0) ∨
     (∃ gt, s.pc e = .execBullet 0 gt ∧ s.gtokenCalls = 1 ∧
        env.gtokenRes 0 = .ok gt ∧ gt.gToken ≠ "")) ∧
    (∀ i, i ≠ e → s.pc i = .entry ∨ s.pc i = .waitCycle 0)

/-- Phase C: cycle 0 has completed with the environment-determined outcome; the
executor is done with the executor result; everyone else is at entry, still waiting,
or done with the waiter result. -/
def PhaseC (env : RefreshEnv) (sessionToken : String) (n : Nat) (s : RState) : Prop :=
  s.isRefreshing = false ∧ s.currentCycle = some 0 ∧ s.nextCycle = 1 ∧
  s.cycles 0 = ⟨true, errOf (refreshOutcome env sessionToken)⟩ ∧
  (∀ c, c ≠ 0 → s.cycles c = ⟨false, none⟩) ∧
  s.gtokenCalls = 1 ∧ s.bulletCalls = bulletCallsOf env ∧
  (∀ td, refreshOutcome env sessionToken = .ok td → s.selfTokens = tokensOf td) ∧
  ∃ e, e < n ∧ s.pc e = .done (execResultOf (refreshOutcome env sessionToken)) ∧
    (∀ i, i ≠ e → s.pc i = .entry ∨ s.pc i = .waitCycle 0 ∨
       s.pc i = .done (waiterResultOf (refreshOutcome env sessionToken)))

/-- Invariant of a run in which all callers join before the first cycle completes. -/
def InvC1 (env : RefreshEnv) (sessionToken : String) (n : Nat) (s : RState) : Prop :=
  PhaseA s ∨ PhaseB env n s ∨ PhaseC env sessionToken n s

/-- Formalizes "N concurrent callers invoke _refresh_tokens while no refresh is in
progress": whenever a caller executes its entry block, either no cycle has ever been
created (it is the group's first arrival) or a refresh is still marked in progress
(it joins the running cycle).  A caller whose entry block runs only after the running
cycle completed would fall outside this predicate. -/
def entriesConcurrent (env : RefreshEnv) (sessionToken : String) (n : Nat)
    (t0 : SelfTokens) (sch : List Nat) : Prop :=
  ∀ k, k < sch.length →
    ((runR env true sessionToken n t0 (sch.take k)).pc (sch.getD k 0) = .entry →
      (runR env true sessionToken n t0 (sch.take k)).isRefreshing = true ∨
      (runR env true sessionToken n t0 (sch.take k)).nextCycle = 0)

/-- Caller pc denotes the executor of cycle c. -/
def isExecAt (p : RPC) (c : Nat) : Prop :=
  p = .execGtoken c ∨ ∃ gt, p = .execBullet c gt

/-- General reachability invariant of the Token Refresh Coordinator, with no
assumption on the schedule (multiple refresh generations may run). -/
structure GInvR (s : RState) : Prop where
  fresh : ∀ c, s.nextCycle ≤ c → s.cycles c = ⟨false, none⟩
  execCur : ∀ i c, isExecAt (s.pc i) c →
    s.isRefreshing = true ∧ s.currentCycle = some c ∧
    (s.cycles c).eventSet = false ∧ c < s.nextCycle
  execUniq : ∀ i j c c', isExecAt (s.pc i) c → isExecAt (s.pc j) c' → i = j

/-- What a waiter on a cycle returns when the cycle's event is set. -/
def cycleWaiterRes (cy : CycleSt) : RResult :=
  match cy.error with
  | some e => .exc e
  | none => .ok none

/-- Caller i has joined cycle a as a waiter: it is still waiting on that cycle, or it
has already finished with exactly that cycle's stored outcome (after completion). -/
def WaiterJoined (i a : Nat) (s : RState) : Prop :=
  s.pc i = .waitCycle a ∨
  (s.pc i = .done (cycleWaiterRes (s.cycles a)) ∧ (s.cycles a).eventSet = true)

/-! ### Request Coordinator (_request_lock / _RequestCycle, splatnet3_api.py 35-93)

The wrapped coroutine (e.g. SplatNet3API.request) is abstracted into a single awaited
call whose outcome the environment determines; the decorator's own bookkeeping (the
map lookup, cycle registration, result/error storage, and the finally block that sets
the event and pops the key) is modelled exactly.  Request keys are abstracted to
strings standing for (func.__name__, args, sorted kwargs). -/

/-- A _RequestCycle object: event, result, error. -/
structure QCycleSt where
  eventSet : Bool
  result : Option String
  error : Option Exc
  deriving DecidableEq, Repr

/-- Outcome of one call through the _request_lock wrapper. -/
inductive QResult where
  | ok (v : Option String)
  | exc (e : Exc)
  deriving DecidableEq, Repr

/-- Program counter of one caller going through the _request_lock wrapper. -/
inductive QPC where
  | entry (key : String)
  | running (key : String) (cyc : Nat)
  | waitCycle (cyc : Nat)
  | done (res : QResult)
  deriving DecidableEq, Repr

/-- Whether the wrapped call has completed. -/
def QPC.isDone : QPC → Bool
  | .done _ => true
  | _ => false

/-- Shared state of the Request Coordinator: the _request_cycles map (key to in-flight
cycle id), all cycles ever allocated, plus a ghost counter of executions of the
wrapped function. -/
structure QState where
  inflight : String → Option Nat
  cycles : Nat → QCycleSt
  nextCycle : Nat
  funcCalls : Nat
  pc : Nat → QPC

/-- Environment: outcome of the k-th execution of the wrapped function. -/
structure QEnv where
  funcRes : Nat → Except Exc String

/-- One atomic block of caller i under the _request_lock wrapper. -/
def stepQ (env : QEnv) (n : Nat) (s : QState) (i : Nat) : QState :=
  if i < n then
    match s.pc i with
    | .entry key =>
      match s.inflight key with
      | some c => { s with pc := Function.update s.pc i (.waitCycle c) }
      | none =>
        { s with inflight := Function.update s.inflight key (some s.nextCycle)
                 cycles := Function.update s.cycles s.nextCycle ⟨false, none, none⟩
                 nextCycle := s.nextCycle + 1
                 pc := Function.update s.pc i (.running key s.nextCycle) }
    | .running key cyc =>
      let s1 := { s with funcCalls := s.funcCalls + 1 }
      match env.funcRes s.funcCalls with
      | .ok v =>
        { s1 with cycles := Function.update s1.cycles cyc ⟨true, some v, none⟩
                  inflight := Function.update s1.inflight key none
                  pc := Function.update s1.pc i (.done (.ok (some v))) }
      | .error e =>
        { s1 with cycles := Function.update s1.cycles cyc ⟨true, none, some e⟩
                  inflight := Function.update s1.inflight key none
                  pc := Function.update s1.pc i (.done (.exc e)) }
    | .waitCycle cyc =>
      if (s.cycles cyc).eventSet then
        match (s.cycles cyc).error with
        | some e => { s with pc := Function.update s.pc i (.done (.exc e)) }
        | none => { s with pc := Function.update s.pc i (.done (.ok (s.cycles cyc).result)) }
      else s
    | .done _ => s
  else s

/-- Initial Request Coordinator state; keys gives each caller's request fingerprint. -/
def initQ (keys : Nat → String) : QState :=
  { inflight := fun _ => none
    cycles := fun _ => ⟨false, none, none⟩
    nextCycle := 0
    funcCalls := 0
    pc := fun i => .entry (keys i) }

/-- Runs a schedule of request callers. -/
def runQ (env : QEnv) (n : Nat) (keys : Nat → String) (sch : List Nat) : QState :=
  sch.foldl (stepQ env n) (initQ keys)

/-- General reachability invariant of the Request Coordinator. -/
structure GInvQ (s : QState) : Prop where
  fresh : ∀ c, s.nextCycle ≤ c → s.cycles c = ⟨false, none, none⟩
  freshMap : ∀ k c, s.inflight k = some c → c < s.nextCycle
  mapRun : ∀ k c, s.inflight k = some c → ∃ i, s.pc i = .running k c
  runMap : ∀ i k c, s.pc i = .running k c →
    s.inflight k = some c ∧ (s.cycles c).eventSet = false
  runUniq : ∀ i j k k' c, s.pc i = .running k c → s.pc j = .running k' c → i = j

/-! ### API Facade: SplatNet3API.request (splatnet3_api.py 349-445)

Modelled as a sequential function of the two HTTP responses and the refresh outcome
(the _request_lock wrapper around it is modelled separately above).  The ghost fields
posts and refreshCalls count the physical POSTs to the GraphQL endpoint and the calls
into _refresh_tokens. -/

/-- An HTTP response as the facade sees it: status code plus the parsed JSON body
(abstracted to a string). -/
structure HttpResp where
  statusCode : Nat
  jsonBody : String
  deriving DecidableEq, Repr

/-- Environment for one facade call: the first response, the response to the single
retry, and the outcome of _refresh_tokens if it is invoked. -/
structure RequestEnv where
  firstResp : HttpResp
  retryResp : HttpResp
  refreshRes : Except Exc (Option TokenData)

/-- Result of one facade call plus ghost counters. -/
structure RequestOutcome where
  result : Except Exc (Option String)
  posts : Nat
  refreshCalls : Nat
  deriving DecidableEq, Repr

/-- _can_auto_refresh (splatnet3_api.py 206-208): bool(self.nso_auth and self.session_token). -/
def canAutoRefresh (hasNsoAuth hasSessionToken : Bool) : Bool :=
  hasNsoAuth && hasSessionToken

/-- SplatNet3API.request (splatnet3_api.py 378-445): first POST; on 401, either give
up (no auto refresh possible, return None), or refresh and retry exactly once; the
classified refresh errors propagate (except-chain at lines 436-445), any other
exception yields None.  The on_tokens_updated callback does not alter the result. -/
def requestFacade (hasNsoAuth hasSessionToken : Bool) (env : RequestEnv) : RequestOutcome :=
  if env.firstResp.statusCode = 401 then
    if canAutoRefresh hasNsoAuth hasSessionToken = false then
      ⟨.ok none, 1, 0⟩
    else
      match env.refreshRes with
      | .error e =>
        match e with
        | .sessionExpired _ => ⟨.error e, 1, 1⟩
        | .membershipRequired _ => ⟨.error e, 1, 1⟩
        | .bulletTokenExc _ _ => ⟨.error e, 1, 1⟩
        | .tokenRefreshExc _ => ⟨.error e, 1, 1⟩
        | _ => ⟨.ok none, 1, 1⟩
      | .ok _ =>
        if env.retryResp.statusCode ≠ 200 then ⟨.ok none, 2, 1⟩
        else ⟨.ok (some env.retryResp.jsonBody), 2, 1⟩
  else if env.firstResp.statusCode ≠ 200 then ⟨.ok none, 1, 0⟩
  else ⟨.ok (some env.firstResp.jsonBody), 1, 0⟩

/-! ### Crypto Oracle Client: call_f_api / f_decrypt_response (nso_auth.py 600-745)

Exact interpolated message suffixes (status codes and response snippets embedded in
Python f-strings) are elided; the claims do not depend on them. -/

/-- A response from the f generation endpoint, as parsed by call_f_api. -/
structure FResp where
  statusCode : Nat
  parseOk : Bool
  errorField : Option String
  fVal : Option String
  requestId : Option String
  timestamp : Option Nat
  encPayload : Option String
  deriving DecidableEq, Repr

/-- A response from the /decrypt-response endpoint. -/
structure DResp where
  statusCode : Nat
  parseOk : Bool
  errorField : Option String
  hasData : Bool
  deriving DecidableEq, Repr

/-- Mutable oracle-client state (self.oauth_token) plus ghost counters: oauth token
exchanges performed, POSTs to the generation endpoint, POSTs to /decrypt-response. -/
structure OracleSt where
  oauthToken : Option String
  authCalls : Nat
  fPosts : Nat
  dPosts : Nat
  deriving DecidableEq, Repr

/-- Environment: the token granted by the k-th oauth client-credentials exchange, the
k-th generation-endpoint response, the k-th decrypt-endpoint response. -/
structure OracleEnv where
  authToken : Nat → Option String
  fResp : Nat → FResp
  dResp : Nat → DResp

/-- f_api_client_auth2_register (nso_auth.py 568-598): performs the client-credentials
exchange and stores data.get("access_token") as the bearer token.  (Its side effect on
the znca client-version cache is not needed by the claims.) -/
def fApiAuthRegister (env : OracleEnv) (st : OracleSt) : OracleSt :=
  { st with oauthToken := env.authToken st.authCalls
            authCalls := st.authCalls + 1 }

/-- Shared tail of call_f_api after the (possibly retried) response is in hand
(nso_auth.py 675-686): any remaining error field is fatal; then f, request_id and
timestamp are extracted (a missing key raises). -/
def callFApiFinish (resp : FResp) (st : OracleSt) :
    Except Exc (String × String × Nat × Option String) × OracleSt :=
  if resp.errorField.isSome then (.error (.valueErr "f-API error"), st)
  else
    match resp.fVal, resp.requestId, resp.timestamp with
    | some f, some rid, some ts => (.ok (f, rid, ts, resp.encPayload), st)
    | _, _, _ => (.error (.keyErr "f-API response missing f/request_id/timestamp"), st)

/-- call_f_api (nso_auth.py 600-686): ensure a bearer token, POST, fail on non-200 or
unparseable body; if the body reports error "invalid_token", re-authenticate once and
retry the POST once (with the same non-200/parse checks); then finish. -/
def callFApi (env : OracleEnv) (st0 : OracleSt) :
    Except Exc (String × String × Nat × Option String) × OracleSt :=
  let st1 := if st0.oauthToken = none then fApiAuthRegister env st0 else st0
  let resp := env.fResp st1.fPosts
  let st2 := { st1 with fPosts := st1.fPosts + 1 }
  if resp.statusCode ≠ 200 then (.error (.valueErr "f-API failed with status"), st2)
  else if resp.parseOk = false then
    (.error (.valueErr "Failed to parse f-API response"), st2)
  else if resp.errorField = some "invalid_token" then
    let st3 := fApiAuthRegister env st2
    let resp2 := env.fResp st3.fPosts
    let st4 := { st3 with fPosts := st3.fPosts + 1 }
    if resp2.statusCode ≠ 200 then (.error (.valueErr "f-API retry failed with status"), st4)
    else if resp2.parseOk = false then
      (.error (.valueErr "Failed to parse f-API retry response"), st4)
    else callFApiFinish resp2 st4
  else callFApiFinish resp st2

/-- Checks f_decrypt_response applies to the (possibly retried) response
(nso_auth.py 732-745): non-200 fatal, unparseable body fatal, error field fatal,
missing data field fatal. -/
def fDecryptChecks (resp : DResp) : Except Exc DResp :=
  if resp.statusCode ≠ 200 then .error (.valueErr "Decrypt failed with status")
  else if resp.parseOk = false then .error (.valueErr "Failed to parse decrypt response")
  else if resp.errorField.isSome then .error (.valueErr "Decrypt error")
  else if resp.hasData = false then .error (.valueErr "Decrypt response missing data field")
  else .ok resp

/-- f_decrypt_response (nso_auth.py 688-745): ensure a bearer token, POST; on a 401
whose body reports error "invalid_token", re-authenticate once and retry the POST
once; then run the common checks.  (A 401 with an unparseable body raises from
resp.json() at line 725, outside any try.) -/
def fDecryptResponse (env : OracleEnv) (st0 : OracleSt) : Except Exc DResp × OracleSt :=
  let st1 := if st0.oauthToken = none then fApiAuthRegister env st0 else st0
  let resp := env.dResp st1.dPosts
  let st2 := { st1 with dPosts := st1.dPosts + 1 }
  if resp.statusCode = 401 then
    if resp.parseOk = false then (.error (.jsonDecodeErr "resp.json() failed"), st2)
    else if resp.errorField = some "invalid_token" then
      let st3 := fApiAuthRegister env st2
      let resp2 := env.dResp st3.dPosts
      let st4 := { st3 with dPosts := st3.dPosts + 1 }
      (fDecryptChecks resp2, st4)
    else (fDecryptChecks resp, st2)
  else (fDecryptChecks resp, st2)

/-! ### Credential Exchange State Machine: get_gtoken pipeline (nso_auth.py 249-517)

call_f_api and f_decrypt_response are abstracted into their outcomes here (they are
modelled in full above); the decrypted and JSON-parsed splatoon_token /
web_service_resp payloads are given by the environment. -/

/-- The /api/token response of the identity exchange. -/
structure IdTokenResp where
  errorField : Option String
  accessToken : Option String
  idToken : Option String
  deriving DecidableEq, Repr

/-- The /2.0.0/users/me profile object. -/
structure UserInfo where
  nickname : String
  language : String
  country : String
  naId : String
  birthday : String
  deriving DecidableEq, Repr

/-- The decrypted v4/Account/Login payload: presence of
result.webApiServerCredential.accessToken and result.user.id. -/
structure SplatoonTok where
  accessToken : Option String
  userId : Option String
  deriving DecidableEq, Repr

/-- The decrypted v4/Game/GetWebServiceToken payload. -/
structure WebSvcTok where
  accessToken : Option String
  errorMessage : Option String
  deriving DecidableEq, Repr

/-- Ghost counters of the exchange steps: POSTs to /api/token, GETs of the profile,
call_f_api invocations, POSTs to v4/Account/Login, POSTs to v4/Game/GetWebServiceToken. -/
structure AuthCounters where
  idTokenPosts : Nat
  profileFetches : Nat
  fApiCalls : Nat
  loginPosts : Nat
  webSvcPosts : Nat
  deriving DecidableEq, Repr

/-- de-facto initial counters. -/
def AuthCounters.zero : AuthCounters := ⟨0, 0, 0, 0, 0⟩

/-- Environment of one get_gtoken run. -/
structure GtokenEnv where
  idResp : IdTokenResp
  userInfo : UserInfo
  fApi : Nat → Except Exc (String × String × Nat × Option String)
  loginResp : Nat → Except Exc SplatoonTok
  webSvcResp : Except Exc WebSvcTok

/-- _get_id_token_and_user_info (nso_auth.py 272-326): POST /api/token; an
"invalid_grant" error field raises SessionExpiredError before anything else; a missing
access_token returns (None, None) without fetching the profile; otherwise the profile
is fetched and (id_token, user_info) returned. -/
def getIdTokenAndUserInfo (env : GtokenEnv) (c : AuthCounters) :
    Except Exc (Option String × Option UserInfo) × AuthCounters :=
  let c1 := { c with idTokenPosts := c.idTokenPosts + 1 }
  if env.idResp.errorField = some "invalid_grant" then
    (.error (.sessionExpired "Session token 已过期或失效，请重新登录"), c1)
  else
    match env.idResp.accessToken with
    | none => (.ok (none, none), c1)
    | some _ =>
      let c2 := { c1 with profileFetches := c1.profileFetches + 1 }
      (.ok (env.idResp.idToken, some env.userInfo), c2)

/-- Stand-in for Python str(splatoon_token) in the wrapped retry error message; the
claims do not depend on its exact form. -/
def splatoonTokStr (t : SplatoonTok) : String :=
  toString (repr t)

/-- The retry block's except-chain (nso_auth.py 432-435): a JSON decode failure maps
to ValueError("JSONDecodeError"), anything else to
ValueError("Failed to get access_token: " + str(splatoon_token)). -/
def retryWrap (tok : SplatoonTok) (e : Exc) : Exc :=
  match e with
  | .jsonDecodeErr _ => .valueErr "JSONDecodeError"
  | _ => .valueErr ("Failed to get access_token: " ++ splatoonTokStr tok)

/-- The single retry of _get_access_token (nso_auth.py 406-435): regenerate the proof,
re-POST with the fresh encrypted payload, re-extract; every failure inside the retry
block is wrapped by retryWrap and is final. -/
def getAccessTokenRetry (env : GtokenEnv) (c : AuthCounters) (oldTok : SplatoonTok) :
    Except Exc (String × String) × AuthCounters :=
  let c1 := { c with fApiCalls := c.fApiCalls + 1 }
  match env.fApi c.fApiCalls with
  | .error e => (.error (retryWrap oldTok e), c1)
  | .ok (_, _, _, encPayload) =>
    match encPayload with
    | none =>
      (.error (retryWrap oldTok (.valueErr "Failed to get encrypted payload from f-API on retry")), c1)
    | some _ =>
      let c2 := { c1 with loginPosts := c1.loginPosts + 1 }
      match env.loginResp c1.loginPosts with
      | .error e => (.error (retryWrap oldTok e), c2)
      | .ok tok2 =>
        match tok2.accessToken, tok2.userId with
        | some atk, some uid => (.ok (atk, uid), c2)
        | _, _ => (.error (retryWrap tok2 (.keyErr "missing accessToken or user id")), c2)

/-- _get_access_token (nso_auth.py 328-438): proof from call_f_api (a missing
encrypted payload is a fatal configuration error), POST v4/Account/Login, decrypt and
parse, extract accessToken and the coral user id; on a missing field, retry the whole
exchange exactly once via getAccessTokenRetry. -/
def getAccessToken (env : GtokenEnv) (c : AuthCounters) :
    Except Exc (String × String) × AuthCounters :=
  let c1 := { c with fApiCalls := c.fApiCalls + 1 }
  match env.fApi c.fApiCalls with
  | .error e => (.error e, c1)
  | .ok (_, _, _, encPayload) =>
    match encPayload with
    | none =>
      (.error (.valueErr "Failed to get encrypted payload from f-API. v4 API requires encryption."), c1)
    | some _ =>
      let c2 := { c1 with loginPosts := c1.loginPosts + 1 }
      match env.loginResp c1.loginPosts with
      | .error e => (.error e, c2)
      | .ok tok =>
        match tok.accessToken, tok.userId with
        | some atk, some uid => (.ok (atk, uid), c2)
        | _, _ => getAccessTokenRetry env c2 tok

/-- _get_g_token (nso_auth.py 440-517): proof for step 2, encrypted POST to
v4/Game/GetWebServiceToken, decrypt; extract result.accessToken; on a missing field a
"Membership required error." message classifies as MembershipRequiredError (carrying
the nickname), anything else is a plain ValueError.  No retry. -/
def getGTokenStep (env : GtokenEnv) (nickname : String) (c : AuthCounters) :
    Except Exc String × AuthCounters :=
  let c1 := { c with fApiCalls := c.fApiCalls + 1 }
  match env.fApi c.fApiCalls with
  | .error e => (.error e, c1)
  | .ok (_, _, _, encPayload) =>
    match encPayload with
    | none =>
      (.error (.valueErr "Failed to get encrypted payload from f-API for g_token. v4 API requires encryption."), c1)
    | some _ =>
      let c2 := { c1 with webSvcPosts := c1.webSvcPosts + 1 }
      match env.webSvcResp with
      | .error e => (.error e, c2)
      | .ok w =>
        match w.accessToken with
        | some g => (.ok g, c2)
        | none =>
          if w.errorMessage = some "Membership required error." then
            (.error (.membershipRequired nickname), c2)
          else (.error (.valueErr "Failed to get g_token from web service response"), c2)

/-- get_gtoken (nso_auth.py 249-270): the three exchange steps in sequence.  The
current_user blob in the returned tuple is abstracted to the coral user id. -/
def getGtoken (env : GtokenEnv) : Except Exc GtokenData × AuthCounters :=
  match getIdTokenAndUserInfo env AuthCounters.zero with
  | (.error e, c) => (.error e, c)
  | (.ok (idToken, userInfo), c) =>
    match idToken, userInfo with
    | some _, some ui =>
      match getAccessToken env c with
      | (.error e, c2) => (.error e, c2)
      | (.ok (atk, uid), c2) =>
        match getGTokenStep env ui.nickname c2 with
        | (.error e, c3) => (.error e, c3)
        | (.ok g, c3) =>
          (.ok { accessToken := atk, gToken := g, nickname := ui.nickname,
                 lang := ui.language, country := ui.country, userInfo := uid }, c3)
    | _, _ => (.error (.valueErr "Failed to get id_token or user_info"), c)

/-! ### get_bullet (nso_auth.py 519-566) -/

/-- The bullet_tokens response: status code, whether the body parses as JSON, and the
bulletToken field if present. -/
structure BulletResp where
  statusCode : Nat
  parseOk : Bool
  bulletToken : Option String
  deriving DecidableEq, Repr

/-- get_bullet: the four classified status codes raise BulletTokenError with the
matching message and status code; otherwise the bulletToken field is returned, with
any parse failure swallowed into None. -/
def getBullet (resp : BulletResp) : Except Exc (Option String) :=
  if resp.statusCode = 401 then .error (mkBulletTokenExc 401 "无效的 Game Web Token")
  else if resp.statusCode = 403 then .error (mkBulletTokenExc 403 "应用版本过时")
  else if resp.statusCode = 204 then .error (mkBulletTokenExc 204 "用户未在 SplatNet3 注册")
  else if resp.statusCode = 499 then .error (mkBulletTokenExc 499 "用户已被封禁")
  else if resp.parseOk then .ok resp.bulletToken
  else .ok none

/-- The status code a raised exception carries. -/
def Exc.statusCodeOf : Exc → Option Nat
  | .bulletTokenExc s _ => some s
  | _ => none

/-! ### Version Cache (nso_auth.py 27-32, 71-158) -/

/-- Hardcoded fallback for the NSO app version (nso_auth.py line 28). -/
def NSOAPP_VER_FALLBACK : String := "3.2.0"

/-- Hardcoded fallback for the web view version (nso_auth.py line 30). -/
def WEB_VIEW_VER_FALLBACK : String := "10.0.0-cba84fcd"

/-- Hardcoded fallback for the znca client version (nso_auth.py line 32). -/
def ZNCA_CLIENT_VER_FALLBACK : String := "hio87-mJks_e9GNF"

/-- The three module-level version globals; "unknown" is the sentinel. -/
structure VersionCache where
  nsoappVersion : String
  webViewVersion : String
  zncaClientVersion : String
  deriving DecidableEq, Repr

/-- reset_cached_versions (nso_auth.py 152-158). -/
def VersionCache.reset : VersionCache :=
  ⟨"unknown", "unknown", "unknown"⟩

/-- Environment: os.environ.get, plus the two remote discovery sources for the NSO app
version (.error () models an exception during the attempt, .ok none a response without
the wanted value; both are swallowed and fall through). -/
structure VersionEnv where
  envVar : String → Option String
  fConfigNsoVersion : Except Unit (Option String)
  appStoreVersion : Except Unit (Option String)

/-- get_nsoapp_version (nso_auth.py 71-118): cached, else the
SPLATOON3_NSOAPP_VERSION environment variable, else the f-API config endpoint, else
the App Store page, else the hardcoded fallback; every successful source (and the
fallback) is written back to the cache. -/
def getNsoappVersion (cache : VersionCache) (env : VersionEnv) : String × VersionCache :=
  if cache.nsoappVersion ≠ "unknown" then (cache.nsoappVersion, cache)
  else
    match env.envVar "SPLATOON3_NSOAPP_VERSION" with
    | some v => (v, { cache with nsoappVersion := v })
    | none =>
      match env.fConfigNsoVersion with
      | .ok (some v) => (v, { cache with nsoappVersion := v })
      | _ =>
        match env.appStoreVersion with
        | .ok (some v) => (v, { cache with nsoappVersion := v })
        | _ => (NSOAPP_VER_FALLBACK, { cache with nsoappVersion := NSOAPP_VER_FALLBACK })

/-- get_web_view_ver (nso_auth.py 120-127): cached value if set, otherwise directly
the hardcoded fallback.  The source consults no environment variable and attempts no
remote discovery for this getter, and does not write the fallback back to the cache;
the env parameter is taken (the environment is globally available to the process) and
ignored, mirroring the source. -/
def getWebViewVer (cache : VersionCache) (_env : VersionEnv) : String × VersionCache :=
  if cache.webViewVersion ≠ "unknown" then (cache.webViewVersion, cache)
  else (WEB_VIEW_VER_FALLBACK, cache)

/-- get_znca_client_version (nso_auth.py 129-150): cached, else the
SPLATOON3_ZNCA_CLIENT_VERSION environment variable (written back), else the hardcoded
fallback (not written back).  The getter itself attempts no remote discovery. -/
def getZncaClientVersion (cache : VersionCache) (env : VersionEnv) : String × VersionCache :=
  if cache.zncaClientVersion ≠ "unknown" then (cache.zncaClientVersion, cache)
  else
    match env.envVar "SPLATOON3_ZNCA_CLIENT_VERSION" with
    | some v => (v, { cache with zncaClientVersion := v })
    | none => (ZNCA_CLIENT_VER_FALLBACK, cache)

/-! ### login_in_2 (nso_auth.py 189-215) -/

/-- Whether pat occurs at index i of s. -/
def listCharIsAt (pat s : List Char) (i : Nat) : Bool :=
  pat.isPrefixOf (s.drop i)

/-- Python re.search(r"de=(.*)&st", url): the match starts at the leftmost index i
where "de=" occurs with some later occurrence of "&st"; the greedy group then extends
to the last occurrence of "&st" at or after i+3.  Returns the captured group. -/
def deStSearch (s : List Char) : Option (List Char) :=
  match (List.range s.length).filter
      (fun i => listCharIsAt ['d', 'e', '='] s i &&
        (List.range s.length).any
          (fun j => decide (i + 3 ≤ j) && listCharIsAt ['&', 's', 't'] s j)) with
  | [] => none
  | i :: _ =>
    match ((List.range s.length).filter
        (fun j => decide (i + 3 ≤ j) && listCharIsAt ['&', 's', 't'] s j)).getLast? with
    | some j => some ((s.drop (i + 3)).take (j - (i + 3)))
    | none => none

/-- The parsed /api/session_token response body. -/
structure SessionTokenResp where
  sessionToken : Option String
  deriving DecidableEq, Repr

/-- Environment of one login_in_2 call: the outcome of _get_session_token (which
includes its HTTP POST and JSON parse). -/
structure LoginEnv where
  sessionTokenExchange : Except Exc SessionTokenResp

/-- login_in_2 (nso_auth.py 189-215): the whole body sits in a try/except that turns
any exception into None; "skip" returns None; a URL without an authorization-code
segment returns None; otherwise the code is exchanged and resp.get("session_token")
returned. -/
def loginIn2 (env : LoginEnv) (useAccountUrl : String) : Option String :=
  if useAccountUrl = "skip" then none
  else
    match deStSearch useAccountUrl.toList with
    | none => none
    | some _ =>
      match env.sessionTokenExchange with
      | .error _ => none
      | .ok resp => resp.sessionToken

/-! ## Theorems -/

/-- C7: in get_bullet, response statuses 401, 403, 204 and 499 raise four pairwise
distinct BulletTokenError classifications (invalid game web token / outdated client
version / account not registered / account banned), each carrying the triggering
status code; in particular a 499 response raises the account-banned classification
with status code 499. -/
theorem c7_bullet_status_classification :
    (∀ p bt, getBullet ⟨401, p, bt⟩ = .error (.bulletTokenExc 401 "无效的 Game Web Token")) ∧
    (∀ p bt, getBullet ⟨403, p, bt⟩ = .error (.bulletTokenExc 403 "应用版本过时")) ∧
    (∀ p bt, getBullet ⟨204, p, bt⟩ = .error (.bulletTokenExc 204 "用户未在 SplatNet3 注册")) ∧
    (∀ p bt, getBullet ⟨499, p, bt⟩ = .error (.bulletTokenExc 499 "用户已被封禁")) ∧
    List.Pairwise (· ≠ ·)
      [Exc.bulletTokenExc 401 "无效的 Game Web Token",
       Exc.bulletTokenExc 403 "应用版本过时",
       Exc.bulletTokenExc 204 "用户未在 SplatNet3 注册",
       Exc.bulletTokenExc 499 "用户已被封禁"] ∧
    Exc.statusCodeOf (.bulletTokenExc 401 "无效的 Game Web Token") = some 401 ∧
    Exc.statusCodeOf (.bulletTokenExc 403 "应用版本过时") = some 403 ∧
    Exc.statusCodeOf (.bulletTokenExc 204 "用户未在 SplatNet3 注册") = some 204 ∧
    Exc.statusCodeOf (.bulletTokenExc 499 "用户已被封禁") = some 499 := by
  refine ⟨fun _ _ => rfl, fun _ _ => rfl, fun _ _ => rfl, fun _ _ => rfl, ?_,
    rfl, rfl, rfl, rfl⟩
  decide

/-- C4: the API facade's request: a 401 first response with NSOAuth and a session
token configured refreshes and retries exactly once, returning the retry body on a
200 retry and None on a non-200 retry (no third POST); with no session token a 401
immediately yields None with no refresh call. -/
theorem c4_facade_auth_retry (env : RequestEnv) :
    (env.firstResp.statusCode = 401 →
      ∀ td, env.refreshRes = .ok td →
        (env.retryResp.statusCode = 200 →
          requestFacade true true env = ⟨.ok (some env.retryResp.jsonBody), 2, 1⟩) ∧
        (env.retryResp.statusCode ≠ 200 →
          requestFacade true true env = ⟨.ok none, 2, 1⟩)) ∧
    (env.firstResp.statusCode = 401 →
      ∀ hasNsoAuth, requestFacade hasNsoAuth false env = ⟨.ok none, 1, 0⟩) := by
  constructor
  · intro h401 td hok
    constructor
    · intro h200
      simp [requestFacade, canAutoRefresh, h401, hok, h200]
    · intro hne
      simp [requestFacade, canAutoRefresh, h401, hok, hne]
  · intro h401 hasNsoAuth
    simp [requestFacade, canAutoRefresh, h401]

/-- C4 witness: concrete 401-then-200, 401-then-401, and no-session-token runs. -/
theorem c4_facade_auth_retry_witness :
    requestFacade true true ⟨⟨401, "a"⟩, ⟨200, "b"⟩, .ok none⟩ = ⟨.ok (some "b"), 2, 1⟩ ∧
    requestFacade true true ⟨⟨401, "a"⟩, ⟨401, "c"⟩, .ok none⟩ = ⟨.ok none, 2, 1⟩ ∧
    requestFacade true false ⟨⟨401, "a"⟩, ⟨200, "b"⟩, .ok none⟩ = ⟨.ok none, 1, 0⟩ :=
  ⟨((c4_facade_auth_retry ⟨⟨401, "a"⟩, ⟨200, "b"⟩, .ok none⟩).1 rfl none rfl).1 rfl,
   ((c4_facade_auth_retry ⟨⟨401, "a"⟩, ⟨401, "c"⟩, .ok none⟩).1 rfl none rfl).2 (by decide),
   (c4_facade_auth_retry ⟨⟨401, "a"⟩, ⟨200, "b"⟩, .ok none⟩).2 rfl true⟩

/-- C8 counterexample: with every version cache entry unset, every environment
variable bound to "9.9.9" and both remote discovery sources available with "8.8.8",
the web-view getter returns the hardcoded fallback — contradicting the claim that
each getter consults the environment override and then remote discovery before
falling back. -/
theorem c8_counterexample :
    VersionCache.reset.webViewVersion = "unknown" ∧
    (getWebViewVer VersionCache.reset
        ⟨fun _ => some "9.9.9", .ok (some "8.8.8"), .ok (some "8.8.8")⟩).1
      = WEB_VIEW_VER_FALLBACK ∧
    WEB_VIEW_VER_FALLBACK ≠ "9.9.9" ∧ WEB_VIEW_VER_FALLBACK ≠ "8.8.8" := by
  refine ⟨rfl, rfl, ?_, ?_⟩ <;> decide

/-- C8 amended: the cascades each getter actually implements.  get_nsoapp_version:
cached, else environment override, else f-API config discovery, else App Store
discovery (individual discovery failures swallowed), else the hardcoded fallback.
get_web_view_ver: cached, else directly the hardcoded fallback (no environment
override, no remote discovery).  get_znca_client_version: cached, else environment
override, else the hardcoded fallback (no remote discovery in the getter). -/
theorem c8_version_cache_cascades (cache : VersionCache) (env : VersionEnv) :
    (cache.nsoappVersion ≠ "unknown" →
      getNsoappVersion cache env = (cache.nsoappVersion, cache)) ∧
    (∀ v, cache.nsoappVersion = "unknown" →
      env.envVar "SPLATOON3_NSOAPP_VERSION" = some v →
      getNsoappVersion cache env = (v, { cache with nsoappVersion := v })) ∧
    (∀ v, cache.nsoappVersion = "unknown" →
      env.envVar "SPLATOON3_NSOAPP_VERSION" = none →
      env.fConfigNsoVersion = .ok (some v) →
      getNsoappVersion cache env = (v, { cache with nsoappVersion := v })) ∧
    (∀ v, cache.nsoappVersion = "unknown" →
      env.envVar "SPLATOON3_NSOAPP_VERSION" = none →
      (env.fConfigNsoVersion = .error () ∨ env.fConfigNsoVersion = .ok none) →
      env.appStoreVersion = .ok (some v) →
      getNsoappVersion cache env = (v, { cache with nsoappVersion := v })) ∧
    (cache.nsoappVersion = "unknown" →
      env.envVar "SPLATOON3_NSOAPP_VERSION" = none →
      (env.fConfigNsoVersion = .error () ∨ env.fConfigNsoVersion = .ok none) →
      (env.appStoreVersion = .error () ∨ env.appStoreVersion = .ok none) →
      getNsoappVersion cache env =
        (NSOAPP_VER_FALLBACK, { cache with nsoappVersion := NSOAPP_VER_FALLBACK })) ∧
    (cache.webViewVersion ≠ "unknown" →
      getWebViewVer cache env = (cache.webViewVersion, cache)) ∧
    (cache.webViewVersion = "unknown" →
      getWebViewVer cache env = (WEB_VIEW_VER_FALLBACK, cache)) ∧
    (cache.zncaClientVersion ≠ "unknown" →
      getZncaClientVersion cache env = (cache.zncaClientVersion, cache)) ∧
    (∀ v, cache.zncaClientVersion = "unknown" →
      env.envVar "SPLATOON3_ZNCA_CLIENT_VERSION" = some v →
      getZncaClientVersion cache env = (v, { cache with zncaClientVersion := v })) ∧
    (cache.zncaClientVersion = "unknown" →
      env.envVar "SPLATOON3_ZNCA_CLIENT_VERSION" = none →
      getZncaClientVersion cache env = (ZNCA_CLIENT_VER_FALLBACK, cache)) := by
  refine ⟨?_, ?_, ?_, ?_, ?_, ?_, ?_, ?_, ?_, ?_⟩
  · intro h; simp [getNsoappVersion, h]
  · intro v h he; simp [getNsoappVersion, h, he]
  · intro v h he hf; simp [getNsoappVersion, h, he, hf]
  · intro v h he hf ha
    rcases hf with hf | hf <;> simp [getNsoappVersion, h, he, hf, ha]
  · intro h he hf ha
    rcases hf with hf | hf <;> rcases ha with ha | ha <;>
      simp [getNsoappVersion, h, he, hf, ha]
  · intro h; simp [getWebViewVer, h]
  · intro h; simp [getWebViewVer, h]
  · intro h; simp [getZncaClientVersion, h]
  · intro v h he; simp [getZncaClientVersion, h, he]
  · intro h he; simp [getZncaClientVersion, h, he]

/-- C8 witness: concrete runs exercising the cascade branches. -/
theorem c8_version_cache_cascades_witness :
    getNsoappVersion ⟨"2.9.0", "unknown", "unknown"⟩
        ⟨fun _ => none, .error (), .error ()⟩ = ("2.9.0", ⟨"2.9.0", "unknown", "unknown"⟩) ∧
    getNsoappVersion VersionCache.reset ⟨fun _ => some "4.0.0", .error (), .error ()⟩
      = ("4.0.0", ⟨"4.0.0", "unknown", "unknown"⟩) ∧
    getNsoappVersion VersionCache.reset ⟨fun _ => none, .ok (some "4.1.0"), .error ()⟩
      = ("4.1.0", ⟨"4.1.0", "unknown", "unknown"⟩) ∧
    getNsoappVersion VersionCache.reset ⟨fun _ => none, .error (), .ok (some "4.2.0")⟩
      = ("4.2.0", ⟨"4.2.0", "unknown", "unknown"⟩) ∧
    getNsoappVersion VersionCache.reset ⟨fun _ => none, .error (), .ok none⟩
      = ("3.2.0", ⟨"3.2.0", "unknown", "unknown"⟩) ∧
    getWebViewVer VersionCache.reset ⟨fun _ => none, .error (), .error ()⟩
      = ("10.0.0-cba84fcd", VersionCache.reset) ∧
    getZncaClientVersion VersionCache.reset ⟨fun _ => some "zv", .error (), .error ()⟩
      = ("zv", ⟨"unknown", "unknown", "zv"⟩) := by
  have e1 := (c8_version_cache_cascades ⟨"2.9.0", "unknown", "unknown"⟩
    ⟨fun _ => none, .error (), .error ()⟩).1 (by decide)
  have e2 := (c8_version_cache_cascades VersionCache.reset
    ⟨fun _ => some "4.0.0", .error (), .error ()⟩).2.1 "4.0.0" rfl rfl
  have e3 := (c8_version_cache_cascades VersionCache.reset
    ⟨fun _ => none, .ok (some "4.1.0"), .error ()⟩).2.2.1 "4.1.0" rfl rfl rfl
  have e4 := (c8_version_cache_cascades VersionCache.reset
    ⟨fun _ => none, .error (), .ok (some "4.2.0")⟩).2.2.2.1 "4.2.0" rfl rfl (.inl rfl) rfl
  have e5 := (c8_version_cache_cascades VersionCache.reset
    ⟨fun _ => none, .error (), .ok none⟩).2.2.2.2.1 rfl rfl (.inl rfl) (.inr rfl)
  have e6 := (c8_version_cache_cascades VersionCache.reset
    ⟨fun _ => none, .error (), .error ()⟩).2.2.2.2.2.2.1 rfl
  have e7 := (c8_version_cache_cascades VersionCache.reset
    ⟨fun _ => some "zv", .error (), .error ()⟩).2.2.2.2.2.2.2.2.1 "zv" rfl rfl
  exact ⟨e1, e2, e3, e4, e5, e6, e7⟩

/-- C10: login_in_2 returns None on the literal "skip" URL, on a URL with no
"de=...&st" authorization-code segment, and when the session-token exchange raises;
it never propagates an exception (its result type carries no exception at all, and a
raising exchange maps to None). -/
theorem c10_login_in_2_total (env : LoginEnv) (url : String) :
    (url = "skip" → loginIn2 env url = none) ∧
    (deStSearch url.toList = none → loginIn2 env url = none) ∧
    (∀ e, env.sessionTokenExchange = .error e → loginIn2 env url = none) := by
  refine ⟨?_, ?_, ?_⟩
  · intro h; simp [loginIn2, h]
  · intro h
    have h' : deStSearch url.data = none := h
    by_cases hs : url = "skip"
    · simp [loginIn2, hs]
    · simp [loginIn2, hs, h']
  · intro e he
    by_cases hs : url = "skip"
    · simp [loginIn2, hs]
    · cases hm : deStSearch url.data with
      | none => simp [loginIn2, hs, hm]
      | some c => simp [loginIn2, hs, hm, he]

/-- C10 witness: the three None paths at concrete inputs. -/
theorem c10_login_in_2_total_witness :
    loginIn2 ⟨.ok ⟨some "tok"⟩⟩ "skip" = none ∧
    loginIn2 ⟨.ok ⟨some "tok"⟩⟩ "npf://auth#no-code-here" = none ∧
    loginIn2 ⟨.error (.otherExc "boom")⟩ "npf://auth#de=abc&st=x" = none :=
  ⟨(c10_login_in_2_total ⟨.ok ⟨some "tok"⟩⟩ "skip").1 rfl,
   (c10_login_in_2_total ⟨.ok ⟨some "tok"⟩⟩ "npf://auth#no-code-here").2.1 (by decide),
   (c10_login_in_2_total ⟨.error (.otherExc "boom")⟩ "npf://auth#de=abc&st=x").2.2
     (.otherExc "boom") rfl⟩

/-- C5: the Crypto Oracle Client invalid-token policy.  call_f_api: a parsed 200
response reporting error "invalid_token" triggers exactly one re-authentication and
exactly one retried POST; a clean retry succeeds, a retry still reporting an error
raises with no third POST.  f_decrypt_response: a 401 response reporting
"invalid_token" likewise re-authenticates once and retries once; a clean retry
succeeds, a second invalid-token 401 raises with no third POST. -/
theorem c5_oracle_invalid_token_retry :
    (∀ (env : OracleEnv) (st : OracleSt) tok fv1 rid1 ts1 ep1 f rid ts ep,
      st.oauthToken = some tok →
      env.fResp st.fPosts = ⟨200, true, some "invalid_token", fv1, rid1, ts1, ep1⟩ →
      env.fResp (st.fPosts + 1) = ⟨200, true, none, some f, some rid, some ts, ep⟩ →
      callFApi env st = (.ok (f, rid, ts, ep),
        ⟨env.authToken st.authCalls, st.authCalls + 1, st.fPosts + 2, st.dPosts⟩)) ∧
    (∀ (env : OracleEnv) (st : OracleSt) tok fv1 rid1 ts1 ep1 err2 fv2 rid2 ts2 ep2,
      st.oauthToken = some tok →
      env.fResp st.fPosts = ⟨200, true, some "invalid_token", fv1, rid1, ts1, ep1⟩ →
      env.fResp (st.fPosts + 1) = ⟨200, true, some err2, fv2, rid2, ts2, ep2⟩ →
      callFApi env st = (.error (.valueErr "f-API error"),
        ⟨env.authToken st.authCalls, st.authCalls + 1, st.fPosts + 2, st.dPosts⟩)) ∧
    (∀ (env : OracleEnv) (st : OracleSt) tok hd1,
      st.oauthToken = some tok →
      env.dResp st.dPosts = ⟨401, true, some "invalid_token", hd1⟩ →
      env.dResp (st.dPosts + 1) = ⟨200, true, none, true⟩ →
      fDecryptResponse env st = (.ok ⟨200, true, none, true⟩,
        ⟨env.authToken st.authCalls, st.authCalls + 1, st.fPosts, st.dPosts + 2⟩)) ∧
    (∀ (env : OracleEnv) (st : OracleSt) tok hd1 err2 hd2,
      st.oauthToken = some tok →
      env.dResp st.dPosts = ⟨401, true, some "invalid_token", hd1⟩ →
      env.dResp (st.dPosts + 1) = ⟨401, true, some err2, hd2⟩ →
      fDecryptResponse env st = (.error (.valueErr "Decrypt failed with status"),
        ⟨env.authToken st.authCalls, st.authCalls + 1, st.fPosts, st.dPosts + 2⟩)) := by
  refine ⟨?_, ?_, ?_, ?_⟩
  · intro env st tok fv1 rid1 ts1 ep1 f rid ts ep hst h1 h2
    simp [callFApi, fApiAuthRegister, callFApiFinish, hst, h1, h2]
  · intro env st tok fv1 rid1 ts1 ep1 err2 fv2 rid2 ts2 ep2 hst h1 h2
    simp [callFApi, fApiAuthRegister, callFApiFinish, hst, h1, h2]
  · intro env st tok hd1 hst h1 h2
    simp [fDecryptResponse, fApiAuthRegister, fDecryptChecks, hst, h1, h2]
  · intro env st tok hd1 err2 hd2 hst h1 h2
    simp [fDecryptResponse, fApiAuthRegister, fDecryptChecks, hst, h1, h2]

/-- C5 witness: concrete invalid-token-then-success and invalid-token-twice runs for
both oracle operations. -/
theorem c5_oracle_invalid_token_retry_witness :
    callFApi
        ⟨fun _ => some "newtok",
         fun k => if k = 0 then ⟨200, true, some "invalid_token", none, none, none, none⟩
           else ⟨200, true, none, some "F", some "RID", some 7, some "ENC"⟩,
         fun _ => ⟨200, true, none, true⟩⟩
        ⟨some "old", 0, 0, 0⟩
      = (.ok ("F", "RID", 7, some "ENC"), ⟨some "newtok", 1, 2, 0⟩) ∧
    callFApi
        ⟨fun _ => some "newtok",
         fun _ => ⟨200, true, some "invalid_token", none, none, none, none⟩,
         fun _ => ⟨200, true, none, true⟩⟩
        ⟨some "old", 0, 0, 0⟩
      = (.error (.valueErr "f-API error"), ⟨some "newtok", 1, 2, 0⟩) ∧
    fDecryptResponse
        ⟨fun _ => some "newtok",
         fun _ => ⟨200, true, none, some "F", some "RID", some 7, none⟩,
         fun k => if k = 0 then ⟨401, true, some "invalid_token", false⟩
           else ⟨200, true, none, true⟩⟩
        ⟨some "old", 0, 0, 0⟩
      = (.ok ⟨200, true, none, true⟩, ⟨some "newtok", 1, 0, 2⟩) ∧
    fDecryptResponse
        ⟨fun _ => some "newtok",
         fun _ => ⟨200, true, none, some "F", some "RID", some 7, none⟩,
         fun _ => ⟨401, true, some "invalid_token", false⟩⟩
        ⟨some "old", 0, 0, 0⟩
      = (.error (.valueErr "Decrypt failed with status"), ⟨some "newtok", 1, 0, 2⟩) :=
  ⟨c5_oracle_invalid_token_retry.1 _ _ "old" none none none none "F" "RID" 7 (some "ENC")
      rfl rfl rfl,
   c5_oracle_invalid_token_retry.2.1 _ _ "old" none none none none "invalid_token"
      none none none none rfl rfl rfl,
   c5_oracle_invalid_token_retry.2.2.1 _ _ "old" false rfl rfl rfl,
   c5_oracle_invalid_token_retry.2.2.2 _ _ "old" false "invalid_token" false rfl rfl rfl⟩

/-- C6: an identity-token response whose error field is "invalid_grant" makes the
exchange raise SessionExpiredError at that point: get_gtoken returns exactly that
error after the single /api/token POST, with no profile fetch, no f-API call, no
access-token exchange POST and no game-token exchange POST; and in the refresh
coordinator a get_gtoken failure finalizes its cycle directly, issuing no
bullet-token call. -/
theorem c6_invalid_grant_session_expired :
    (∀ env : GtokenEnv, env.idResp.errorField = some "invalid_grant" →
      getGtoken env = (.error (.sessionExpired "Session token 已过期或失效，请重新登录"),
        ⟨1, 0, 0, 0, 0⟩)) ∧
    (∀ (renv : RefreshEnv) sessionToken n (s : RState) i cyc (e : Exc),
      i < n → s.pc i = .execGtoken cyc →
      renv.gtokenRes s.gtokenCalls = .error e →
      (stepR renv true sessionToken n s i).bulletCalls = s.bulletCalls ∧
      (stepR renv true sessionToken n s i).pc i = .done (.exc (classifyRefreshExc e))) := by
  constructor
  · intro env h
    simp [getGtoken, getIdTokenAndUserInfo, AuthCounters.zero, h]
  · intro renv sessionToken n s i cyc e hi hpc herr
    simp [stepR, hi, hpc, herr, finalizeErr]

/-- C6 witness: a concrete invalid_grant exchange, and a concrete refresh step whose
get_gtoken raises. -/
theorem c6_invalid_grant_session_expired_witness :
    getGtoken
        ⟨⟨some "invalid_grant", some "a", some "i"⟩, ⟨"n", "l", "c", "id", "bd"⟩,
         fun _ => .error (.otherExc "unused"), fun _ => .error (.otherExc "unused"),
         .error (.otherExc "unused")⟩
      = (.error (.sessionExpired "Session token 已过期或失效，请重新登录"), ⟨1, 0, 0, 0, 0⟩) ∧
    (stepR ⟨fun _ => .error (.sessionExpired "dead"), fun _ => .ok "bt"⟩ true "sess" 1
        { initR ⟨none, none, none, "zh-CN", "JP"⟩ with
            pc := Function.update (initR ⟨none, none, none, "zh-CN", "JP"⟩).pc 0 (.execGtoken 0) }
        0).bulletCalls = 0 :=
  ⟨c6_invalid_grant_session_expired.1 _ rfl,
   (c6_invalid_grant_session_expired.2
      ⟨fun _ => .error (.sessionExpired "dead"), fun _ => .ok "bt"⟩ "sess" 1
      _ 0 0 (.sessionExpired "dead") (by decide) (by simp) rfl).1⟩

/-- C9: the access-token exchange retry-once policy: a decrypted payload missing
accessToken or the user id regenerates the proof and retries the whole exchange
exactly once (two f-API calls, two login POSTs); a complete retried payload yields
its token, a retried payload again missing fields fails fatally with no further
attempt; a complete first payload is accepted with no retry. -/
theorem c9_access_token_retry_once :
    (∀ (env : GtokenEnv) (c : AuthCounters) f1 r1 t1 p1 (tok0 : SplatoonTok) f2 r2 t2 p2 atk uid,
      env.fApi c.fApiCalls = .ok (f1, r1, t1, some p1) →
      env.loginResp c.loginPosts = .ok tok0 →
      (tok0.accessToken = none ∨ tok0.userId = none) →
      env.fApi (c.fApiCalls + 1) = .ok (f2, r2, t2, some p2) →
      env.loginResp (c.loginPosts + 1) = .ok ⟨some atk, some uid⟩ →
      getAccessToken env c = (.ok (atk, uid),
        ⟨c.idTokenPosts, c.profileFetches, c.fApiCalls + 2, c.loginPosts + 2, c.webSvcPosts⟩)) ∧
    (∀ (env : GtokenEnv) (c : AuthCounters) f1 r1 t1 p1 (tok0 : SplatoonTok) f2 r2 t2 p2
        (tok1 : SplatoonTok),
      env.fApi c.fApiCalls = .ok (f1, r1, t1, some p1) →
      env.loginResp c.loginPosts = .ok tok0 →
      (tok0.accessToken = none ∨ tok0.userId = none) →
      env.fApi (c.fApiCalls + 1) = .ok (f2, r2, t2, some p2) →
      env.loginResp (c.loginPosts + 1) = .ok tok1 →
      (tok1.accessToken = none ∨ tok1.userId = none) →
      getAccessToken env c = (.error (retryWrap tok1 (.keyErr "missing accessToken or user id")),
        ⟨c.idTokenPosts, c.profileFetches, c.fApiCalls + 2, c.loginPosts + 2, c.webSvcPosts⟩)) ∧
    (∀ (env : GtokenEnv) (c : AuthCounters) f1 r1 t1 p1 atk uid,
      env.fApi c.fApiCalls = .ok (f1, r1, t1, some p1) →
      env.loginResp c.loginPosts = .ok ⟨some atk, some uid⟩ →
      getAccessToken env c = (.ok (atk, uid),
        ⟨c.idTokenPosts, c.profileFetches, c.fApiCalls + 1, c.loginPosts + 1, c.webSvcPosts⟩)) := by
  refine ⟨?_, ?_, ?_⟩
  · intro env c f1 r1 t1 p1 tok0 f2 r2 t2 p2 atk uid h1 h2 hm h3 h4
    obtain ⟨a0, u0⟩ := tok0
    rcases hm with hm | hm
    · subst hm
      cases u0 <;> simp [getAccessToken, getAccessTokenRetry, h1, h2, h3, h4]
    · subst hm
      cases a0 <;> simp [getAccessToken, getAccessTokenRetry, h1, h2, h3, h4]
  · intro env c f1 r1 t1 p1 tok0 f2 r2 t2 p2 tok1 h1 h2 hm h3 h4 hm1
    obtain ⟨a0, u0⟩ := tok0
    obtain ⟨a1, u1⟩ := tok1
    rcases hm with hm | hm
    · subst hm
      rcases hm1 with hm1 | hm1
      · subst hm1
        cases u0 <;> cases u1 <;>
          simp [getAccessToken, getAccessTokenRetry, retryWrap, h1, h2, h3, h4]
      · subst hm1
        cases u0 <;> cases a1 <;>
          simp [getAccessToken, getAccessTokenRetry, retryWrap, h1, h2, h3, h4]
    · subst hm
      rcases hm1 with hm1 | hm1
      · subst hm1
        cases a0 <;> cases u1 <;>
          simp [getAccessToken, getAccessTokenRetry, retryWrap, h1, h2, h3, h4]
      · subst hm1
        cases a0 <;> cases a1 <;>
          simp [getAccessToken, getAccessTokenRetry, retryWrap, h1, h2, h3, h4]
  · intro env c f1 r1 t1 p1 atk uid h1 h2
    simp [getAccessToken, h1, h2]

/-- C9 witness: concrete missing-then-complete, missing-twice, and complete-first
exchanges. -/
theorem c9_access_token_retry_once_witness :
    getAccessToken
        ⟨⟨none, some "a", some "i"⟩, ⟨"n", "l", "c", "id", "bd"⟩,
         fun _ => .ok ("F", "R", 7, some "ENC"),
         fun k => if k = 0 then .ok ⟨none, none⟩ else .ok ⟨some "AT", some "UID"⟩,
         .error (.otherExc "unused")⟩
        AuthCounters.zero
      = (.ok ("AT", "UID"), ⟨0, 0, 2, 2, 0⟩) ∧
    getAccessToken
        ⟨⟨none, some "a", some "i"⟩, ⟨"n", "l", "c", "id", "bd"⟩,
         fun _ => .ok ("F", "R", 7, some "ENC"),
         fun _ => .ok ⟨none, none⟩,
         .error (.otherExc "unused")⟩
        AuthCounters.zero
      = (.error (retryWrap ⟨none, none⟩ (.keyErr "missing accessToken or user id")),
         ⟨0, 0, 2, 2, 0⟩) ∧
    getAccessToken
        ⟨⟨none, some "a", some "i"⟩, ⟨"n", "l", "c", "id", "bd"⟩,
         fun _ => .ok ("F", "R", 7, some "ENC"),
         fun _ => .ok ⟨some "AT", some "UID"⟩,
         .error (.otherExc "unused")⟩
        AuthCounters.zero
      = (.ok ("AT", "UID"), ⟨0, 0, 1, 1, 0⟩) :=
  ⟨c9_access_token_retry_once.1 _ AuthCounters.zero "F" "R" 7 "ENC" ⟨none, none⟩
      "F" "R" 7 "ENC" "AT" "UID" rfl rfl (.inl rfl) rfl rfl,
   c9_access_token_retry_once.2.1 _ AuthCounters.zero "F" "R" 7 "ENC" ⟨none, none⟩
      "F" "R" 7 "ENC" ⟨none, none⟩ rfl rfl (.inl rfl) rfl rfl (.inl rfl),
   c9_access_token_retry_once.2.2 _ AuthCounters.zero "F" "R" 7 "ENC" "AT" "UID" rfl rfl⟩

/-! ### Characterization lemmas for the refresh coordinator's atomic blocks -/

theorem stepR_eq_of_ge (env : RefreshEnv) (cr : Bool) (tok : String) (n : Nat)
    (s : RState) (i : Nat) (h : ¬ i < n) :
    stepR env cr tok n s i = s := by
  simp [stepR, h]

theorem stepR_eq_done (env : RefreshEnv) (cr : Bool) (tok : String) (n : Nat)
    (s : RState) (i : Nat) (r : RResult) (hi : i < n) (h : s.pc i = .done r) :
    stepR env cr tok n s i = s := by
  simp [stepR, hi, h]

theorem stepR_entry_noauth (env : RefreshEnv) (cr : Bool) (tok : String) (n : Nat)
    (s : RState) (i : Nat) (hi : i < n) (hpc : s.pc i = .entry) (hcr : cr = false) :
    stepR env cr tok n s i =
      { s with pc := (Function.update s.pc i
          (.done (.exc (.tokenRefreshExc "无法自动刷新：缺少 NSOAuth 或 session_token")))) } := by
  simp [stepR, hi, hpc, hcr]

theorem stepR_entry_join (env : RefreshEnv) (cr : Bool) (tok : String) (n : Nat)
    (s : RState) (i c : Nat) (hi : i < n) (hpc : s.pc i = .entry) (hcr : cr = true)
    (hr : s.isRefreshing = true) (hcur : s.currentCycle = some c) :
    stepR env cr tok n s i = { s with pc := Function.update s.pc i (.waitCycle c) } := by
  simp [stepR, hi, hpc, hcr, hr, hcur]

theorem stepR_entry_dead (env : RefreshEnv) (cr : Bool) (tok : String) (n : Nat)
    (s : RState) (i : Nat) (hi : i < n) (hpc : s.pc i = .entry) (hcr : cr = true)
    (hr : s.isRefreshing = true) (hcur : s.currentCycle = none) :
    stepR env cr tok n s i =
      { s with pc := (Function.update s.pc i
          (.done (.exc (.otherExc "unreachable: refreshing without current cycle")))) } := by
  simp [stepR, hi, hpc, hcr, hr, hcur]

theorem stepR_entry_start (env : RefreshEnv) (cr : Bool) (tok : String) (n : Nat)
    (s : RState) (i : Nat) (hi : i < n) (hpc : s.pc i = .entry) (hcr : cr = true)
    (hr : s.isRefreshing = false) :
    stepR env cr tok n s i =
      { s with isRefreshing := true
               currentCycle := some s.nextCycle
               cycles := Function.update s.cycles s.nextCycle ⟨false, none⟩
               nextCycle := s.nextCycle + 1
               pc := Function.update s.pc i (.execGtoken s.nextCycle) } := by
  simp [stepR, hi, hpc, hcr, hr]

theorem stepR_gtoken_err (env : RefreshEnv) (cr : Bool) (tok : String) (n : Nat)
    (s : RState) (i c : Nat) (e : Exc) (hi : i < n) (hpc : s.pc i = .execGtoken c)
    (he : env.gtokenRes s.gtokenCalls = .error e) :
    stepR env cr tok n s i =
      finalizeErr { s with gtokenCalls := s.gtokenCalls + 1 } i c (classifyRefreshExc e) := by
  simp [stepR, hi, hpc, he]

theorem stepR_gtoken_empty (env : RefreshEnv) (cr : Bool) (tok : String) (n : Nat)
    (s : RState) (i c : Nat) (gt : GtokenData) (hi : i < n) (hpc : s.pc i = .execGtoken c)
    (he : env.gtokenRes s.gtokenCalls = .ok gt) (hempty : gt.gToken = "") :
    stepR env cr tok n s i =
      finalizeErr { s with gtokenCalls := s.gtokenCalls + 1 } i c
        (classifyRefreshExc (.tokenRefreshExc "Failed to get g_token")) := by
  simp [stepR, hi, hpc, he, hempty]

theorem stepR_gtoken_ok (env : RefreshEnv) (cr : Bool) (tok : String) (n : Nat)
    (s : RState) (i c : Nat) (gt : GtokenData) (hi : i < n) (hpc : s.pc i = .execGtoken c)
    (he : env.gtokenRes s.gtokenCalls = .ok gt) (hne : gt.gToken ≠ "") :
    stepR env cr tok n s i =
      { s with gtokenCalls := s.gtokenCalls + 1
               pc := Function.update s.pc i (.execBullet c gt) } := by
  simp [stepR, hi, hpc, he, hne]

theorem stepR_bullet_err (env : RefreshEnv) (cr : Bool) (tok : String) (n : Nat)
    (s : RState) (i c : Nat) (gt : GtokenData) (e : Exc) (hi : i < n)
    (hpc : s.pc i = .execBullet c gt) (he : env.bulletRes s.bulletCalls = .error e) :
    stepR env cr tok n s i =
      finalizeErr { s with bulletCalls := s.bulletCalls + 1 } i c (classifyRefreshExc e) := by
  simp [stepR, hi, hpc, he]

theorem stepR_bullet_empty (env : RefreshEnv) (cr : Bool) (tok : String) (n : Nat)
    (s : RState) (i c : Nat) (gt : GtokenData) (hi : i < n)
    (hpc : s.pc i = .execBullet c gt) (he : env.bulletRes s.bulletCalls = .ok "") :
    stepR env cr tok n s i =
      finalizeErr { s with bulletCalls := s.bulletCalls + 1 } i c
        (classifyRefreshExc (.tokenRefreshExc "Failed to get bullet_token")) := by
  simp [stepR, hi, hpc, he]

theorem stepR_bullet_ok (env : RefreshEnv) (cr : Bool) (tok : String) (n : Nat)
    (s : RState) (i c : Nat) (gt : GtokenData) (b : String) (hi : i < n)
    (hpc : s.pc i = .execBullet c gt) (he : env.bulletRes s.bulletCalls = .ok b)
    (hne : b ≠ "") :
    stepR env cr tok n s i =
      { s with bulletCalls := s.bulletCalls + 1
               selfTokens := ⟨some gt.accessToken, some gt.gToken, some b, gt.lang, gt.country⟩
               cycles := Function.update s.cycles c ⟨true, none⟩
               isRefreshing := false
               pc := Function.update s.pc i (.done (.ok (some (mkTokenData tok gt b)))) } := by
  simp [stepR, hi, hpc, he, hne]

theorem stepR_wait_pending (env : RefreshEnv) (cr : Bool) (tok : String) (n : Nat)
    (s : RState) (i c : Nat) (hi : i < n) (hpc : s.pc i = .waitCycle c)
    (hev : (s.cycles c).eventSet = false) :
    stepR env cr tok n s i = s := by
  simp [stepR, hi, hpc, hev]

theorem stepR_wait_wake (env : RefreshEnv) (cr : Bool) (tok : String) (n : Nat)
    (s : RState) (i c : Nat) (hi : i < n) (hpc : s.pc i = .waitCycle c)
    (hev : (s.cycles c).eventSet = true) :
    stepR env cr tok n s i =
      { s with pc := Function.update s.pc i (.done (cycleWaiterRes (s.cycles c))) } := by
  cases herr : (s.cycles c).error <;> simp [stepR, hi, hpc, hev, herr, cycleWaiterRes]

/-! ### General invariant of the refresh coordinator -/

theorem isExecAt_done (r : RResult) (c : Nat) : ¬ isExecAt (.done r) c := by
  rintro (h | ⟨gt, h⟩) <;> simp at h

theorem isExecAt_entry (c : Nat) : ¬ isExecAt .entry c := by
  rintro (h | ⟨gt, h⟩) <;> simp at h

theorem isExecAt_wait (a c : Nat) : ¬ isExecAt (.waitCycle a) c := by
  rintro (h | ⟨gt, h⟩) <;> simp at h

theorem initR_GInvR (t0 : SelfTokens) : GInvR (initR t0) := by
  refine ⟨fun c _ => rfl, fun i c h => ?_, fun i j c c' h _ => ?_⟩
  · exact absurd h (isExecAt_entry c)
  · exact absurd h (isExecAt_entry c)

/-- A pc-only update whose old and new values are both non-executor states preserves
the general invariant. -/
theorem GInvR_update_nonexec (s : RState) (i : Nat) (x : RPC) (hg : GInvR s)
    (hnew : ∀ c, ¬ isExecAt x c) :
    GInvR { s with pc := Function.update s.pc i x } := by
  obtain ⟨fresh, execCur, execUniq⟩ := hg
  refine ⟨fresh, ?_, ?_⟩
  · intro j c hj
    rcases eq_or_ne j i with rfl | hne
    · rw [show ({ s with pc := Function.update s.pc j x } : RState).pc j = x by
        simp [Function.update_same]] at hj
      exact absurd hj (hnew c)
    · rw [show ({ s with pc := Function.update s.pc i x } : RState).pc j = s.pc j by
        simp [Function.update_noteq hne]] at hj
      exact execCur j c hj
  · intro j j' c c' hj hj'
    rcases eq_or_ne j i with rfl | hne
    · rw [show ({ s with pc := Function.update s.pc j x } : RState).pc j = x by
        simp [Function.update_same]] at hj
      exact absurd hj (hnew c)
    · rcases eq_or_ne j' i with rfl | hne'
      · rw [show ({ s with pc := Function.update s.pc j' x } : RState).pc j' = x by
          simp [Function.update_same]] at hj'
        exact absurd hj' (hnew c')
      · rw [show ({ s with pc := Function.update s.pc i x } : RState).pc j = s.pc j by
          simp [Function.update_noteq hne]] at hj
        rw [show ({ s with pc := Function.update s.pc i x } : RState).pc j' = s.pc j' by
          simp [Function.update_noteq hne']] at hj'
        exact execUniq j j' c c' hj hj'

/-- Finalizing an executor's cycle preserves the general invariant (the executor
becomes done, the flag is cleared, its cycle gets its event set). -/
theorem GInvR_finalizeErr (s : RState) (i cyc : Nat) (e : Exc) (hg : GInvR s)
    (hexec : isExecAt (s.pc i) cyc) :
    GInvR (finalizeErr s i cyc e) := by
  obtain ⟨fresh, execCur, execUniq⟩ := hg
  have hcyc := execCur i cyc hexec
  refine ⟨?_, ?_, ?_⟩
  · intro c hc
    have hc' : s.nextCycle ≤ c := hc
    have hne : cyc ≠ c := Nat.ne_of_lt (Nat.lt_of_lt_of_le hcyc.2.2.2 hc')
    simp only [finalizeErr]
    rw [Function.update_noteq (Ne.symm hne)]
    exact fresh c hc
  · intro j c hj
    have hj' : isExecAt ((Function.update s.pc i (.done (.exc e))) j) c := hj
    rcases eq_or_ne j i with rfl | hne
    · rw [Function.update_same] at hj'
      exact absurd hj' (isExecAt_done _ c)
    · rw [Function.update_noteq hne] at hj'
      exact absurd (execUniq j i c cyc hj' hexec) hne
  · intro j j' c c' hj hj'
    have hj1 : isExecAt ((Function.update s.pc i (.done (.exc e))) j) c := hj
    rcases eq_or_ne j i with rfl | hne
    · rw [Function.update_same] at hj1
      exact absurd hj1 (isExecAt_done _ c)
    · rw [Function.update_noteq hne] at hj1
      exact absurd (execUniq j i c cyc hj1 hexec) hne

/-- Every atomic block preserves the general invariant. -/
theorem stepR_GInvR (env : RefreshEnv) (cr : Bool) (tok : String) (n : Nat)
    (s : RState) (i : Nat) (hg : GInvR s) :
    GInvR (stepR env cr tok n s i) := by
  by_cases hi : i < n
  swap
  · rw [stepR_eq_of_ge env cr tok n s i hi]; exact hg
  obtain ⟨fresh, execCur, execUniq⟩ := hg
  cases hpc : s.pc i with
  | done r =>
    rw [stepR_eq_done env cr tok n s i r hi hpc]; exact ⟨fresh, execCur, execUniq⟩
  | entry =>
    by_cases hcr : cr = false
    · rw [stepR_entry_noauth env cr tok n s i hi hpc hcr]
      exact GInvR_update_nonexec s i _ ⟨fresh, execCur, execUniq⟩ (isExecAt_done _)
    · have hcr' : cr = true := by
        cases cr
        · exact absurd rfl hcr
        · rfl
      cases hr : s.isRefreshing with
      | true =>
        cases hcur : s.currentCycle with
        | some c =>
          rw [stepR_entry_join env cr tok n s i c hi hpc hcr' hr hcur]
          exact GInvR_update_nonexec s i _ ⟨fresh, execCur, execUniq⟩ (isExecAt_wait _)
        | none =>
          rw [stepR_entry_dead env cr tok n s i hi hpc hcr' hr hcur]
          exact GInvR_update_nonexec s i _ ⟨fresh, execCur, execUniq⟩ (isExecAt_done _)
      | false =>
        rw [stepR_entry_start env cr tok n s i hi hpc hcr' hr]
        have hnoexec : ∀ j c, ¬ isExecAt (s.pc j) c := by
          intro j c hj
          have := (execCur j c hj).1
          rw [hr] at this
          exact Bool.false_ne_true this
        refine ⟨?_, ?_, ?_⟩
        · intro c hc
          have hc' : s.nextCycle ≤ c := Nat.le_of_succ_le hc
          have hne : s.nextCycle ≠ c := Nat.ne_of_lt hc
          simp only []
          rw [Function.update_noteq (Ne.symm hne)]
          exact fresh c hc'
        · intro j c hj
          have hj' : isExecAt ((Function.update s.pc i (.execGtoken s.nextCycle)) j) c := hj
          rcases eq_or_ne j i with rfl | hne
          · rw [Function.update_same] at hj'
            have hc : c = s.nextCycle := by
              rcases hj' with h | ⟨gt, h⟩
              · exact (RPC.execGtoken.inj h).symm
              · simp at h
            subst hc
            refine ⟨rfl, rfl, ?_, Nat.lt_succ_self _⟩
            show (Function.update s.cycles s.nextCycle ⟨false, none⟩ s.nextCycle).eventSet = false
            rw [Function.update_same]
          · rw [Function.update_noteq hne] at hj'
            exact absurd hj' (hnoexec j c)
        · intro j j' c c' hj hj'
          have hj1 : isExecAt ((Function.update s.pc i (.execGtoken s.nextCycle)) j) c := hj
          have hj2 : isExecAt ((Function.update s.pc i (.execGtoken s.nextCycle)) j') c' := hj'
          rcases eq_or_ne j i with rfl | hne
          · rcases eq_or_ne j' j with rfl | hne'
            · rfl
            · rw [Function.update_noteq hne'] at hj2
              exact absurd hj2 (hnoexec j' c')
          · rw [Function.update_noteq hne] at hj1
            exact absurd hj1 (hnoexec j c)
  | execGtoken c =>
    have hexec : isExecAt (s.pc i) c := by rw [hpc]; exact .inl rfl
    cases he : env.gtokenRes s.gtokenCalls with
    | error e =>
      rw [stepR_gtoken_err env cr tok n s i c e hi hpc he]
      exact GInvR_finalizeErr _ i c _ ⟨fresh, fun j c' hj => execCur j c' hj,
        fun j j' c1 c2 hj hj' => execUniq j j' c1 c2 hj hj'⟩ hexec
    | ok gt =>
      by_cases hemp : gt.gToken = ""
      · rw [stepR_gtoken_empty env cr tok n s i c gt hi hpc he hemp]
        exact GInvR_finalizeErr _ i c _ ⟨fresh, fun j c' hj => execCur j c' hj,
          fun j j' c1 c2 hj hj' => execUniq j j' c1 c2 hj hj'⟩ hexec
      · rw [stepR_gtoken_ok env cr tok n s i c gt hi hpc he hemp]
        refine ⟨fresh, ?_, ?_⟩
        · intro j c' hj
          have hj' : isExecAt ((Function.update s.pc i (.execBullet c gt)) j) c' := hj
          rcases eq_or_ne j i with rfl | hne
          · rw [Function.update_same] at hj'
            have hc : c' = c := by
              rcases hj' with h | ⟨gt', h⟩
              · simp at h
              · simp only [RPC.execBullet.injEq] at h
                exact h.1.symm
            subst hc
            exact execCur j c' hexec
          · rw [Function.update_noteq hne] at hj'
            exact execCur j c' hj'
        · intro j j' c1 c2 hj hj'
          have hj1 : isExecAt ((Function.update s.pc i (.execBullet c gt)) j) c1 := hj
          have hj2 : isExecAt ((Function.update s.pc i (.execBullet c gt)) j') c2 := hj'
          rcases eq_or_ne j i with rfl | hne
          · rcases eq_or_ne j' j with rfl | hne'
            · rfl
            · rw [Function.update_noteq hne'] at hj2
              exact (execUniq j' j c2 c hj2 hexec).symm
          · rw [Function.update_noteq hne] at hj1
            rcases eq_or_ne j' i with rfl | hne'
            · exact execUniq j j' c1 c hj1 hexec
            · rw [Function.update_noteq hne'] at hj2
              exact execUniq j j' c1 c2 hj1 hj2
  | execBullet c gt =>
    have hexec : isExecAt (s.pc i) c := by rw [hpc]; exact .inr ⟨gt, rfl⟩
    cases he : env.bulletRes s.bulletCalls with
    | error e =>
      rw [stepR_bullet_err env cr tok n s i c gt e hi hpc he]
      exact GInvR_finalizeErr _ i c _ ⟨fresh, fun j c' hj => execCur j c' hj,
        fun j j' c1 c2 hj hj' => execUniq j j' c1 c2 hj hj'⟩ hexec
    | ok b =>
      by_cases hemp : b = ""
      · subst hemp
        rw [stepR_bullet_empty env cr tok n s i c gt hi hpc he]
        exact GInvR_finalizeErr _ i c _ ⟨fresh, fun j c' hj => execCur j c' hj,
          fun j j' c1 c2 hj hj' => execUniq j j' c1 c2 hj hj'⟩ hexec
      · rw [stepR_bullet_ok env cr tok n s i c gt b hi hpc he hemp]
        have hcyc := execCur i c hexec
        refine ⟨?_, ?_, ?_⟩
        · intro c' hc'
          have hne : c ≠ c' := Nat.ne_of_lt (Nat.lt_of_lt_of_le hcyc.2.2.2 hc')
          show Function.update s.cycles c ⟨true, none⟩ c' = ⟨false, none⟩
          rw [Function.update_noteq (Ne.symm hne)]
          exact fresh c' hc'
        · intro j c' hj
          have hj' : isExecAt
              ((Function.update s.pc i (.done (.ok (some (mkTokenData tok gt b))))) j) c' := hj
          rcases eq_or_ne j i with rfl | hne
          · rw [Function.update_same] at hj'
            exact absurd hj' (isExecAt_done _ c')
          · rw [Function.update_noteq hne] at hj'
            exact absurd (execUniq j i c' c hj' hexec) hne
        · intro j j' c1 c2 hj hj'
          have hj1 : isExecAt
              ((Function.update s.pc i (.done (.ok (some (mkTokenData tok gt b))))) j) c1 := hj
          rcases eq_or_ne j i with rfl | hne
          · rw [Function.update_same] at hj1
            exact absurd hj1 (isExecAt_done _ c1)
          · rw [Function.update_noteq hne] at hj1
            exact absurd (execUniq j i c1 c hj1 hexec) hne
  | waitCycle c =>
    cases hev : (s.cycles c).eventSet with
    | false =>
      rw [stepR_wait_pending env cr tok n s i c hi hpc hev]
      exact ⟨fresh, execCur, execUniq⟩
    | true =>
      rw [stepR_wait_wake env cr tok n s i c hi hpc hev]
      exact GInvR_update_nonexec s i _ ⟨fresh, execCur, execUniq⟩ (isExecAt_done _)

/-- A completed cycle is frozen: once its event is set, no later atomic block ever
changes it again (its stored error is immutable). -/
theorem stepR_frozen (env : RefreshEnv) (cr : Bool) (tok : String) (n : Nat)
    (s : RState) (i a : Nat) (hg : GInvR s) (ha : (s.cycles a).eventSet = true) :
    (stepR env cr tok n s i).cycles a = s.cycles a := by
  by_cases hi : i < n
  swap
  · rw [stepR_eq_of_ge env cr tok n s i hi]
  cases hpc : s.pc i with
  | done r => rw [stepR_eq_done env cr tok n s i r hi hpc]
  | entry =>
    have hfreshne : s.nextCycle ≠ a := by
      intro h
      have := hg.fresh a (le_of_eq h)
      rw [this] at ha
      simp at ha
    by_cases hcr : cr = false
    · rw [stepR_entry_noauth env cr tok n s i hi hpc hcr]
    · have hcr' : cr = true := by
        cases cr
        · exact absurd rfl hcr
        · rfl
      cases hr : s.isRefreshing with
      | true =>
        cases hcur : s.currentCycle with
        | some c => rw [stepR_entry_join env cr tok n s i c hi hpc hcr' hr hcur]
        | none => rw [stepR_entry_dead env cr tok n s i hi hpc hcr' hr hcur]
      | false =>
        rw [stepR_entry_start env cr tok n s i hi hpc hcr' hr]
        show Function.update s.cycles s.nextCycle ⟨false, none⟩ a = s.cycles a
        rw [Function.update_noteq (Ne.symm hfreshne)]
  | execGtoken c =>
    have hexec : isExecAt (s.pc i) c := by rw [hpc]; exact .inl rfl
    have hne : c ≠ a := by
      intro h
      have := (hg.execCur i c hexec).2.2.1
      rw [h, ha] at this
      simp at this
    cases he : env.gtokenRes s.gtokenCalls with
    | error e =>
      rw [stepR_gtoken_err env cr tok n s i c e hi hpc he]
      simp only [finalizeErr]
      rw [Function.update_noteq (Ne.symm hne)]
    | ok gt =>
      by_cases hemp : gt.gToken = ""
      · rw [stepR_gtoken_empty env cr tok n s i c gt hi hpc he hemp]
        simp only [finalizeErr]
        rw [Function.update_noteq (Ne.symm hne)]
      · rw [stepR_gtoken_ok env cr tok n s i c gt hi hpc he hemp]
  | execBullet c gt =>
    have hexec : isExecAt (s.pc i) c := by rw [hpc]; exact .inr ⟨gt, rfl⟩
    have hne : c ≠ a := by
      intro h
      have := (hg.execCur i c hexec).2.2.1
      rw [h, ha] at this
      simp at this
    cases he : env.bulletRes s.bulletCalls with
    | error e =>
      rw [stepR_bullet_err env cr tok n s i c gt e hi hpc he]
      simp only [finalizeErr]
      rw [Function.update_noteq (Ne.symm hne)]
    | ok b =>
      by_cases hemp : b = ""
      · subst hemp
        rw [stepR_bullet_empty env cr tok n s i c gt hi hpc he]
        simp only [finalizeErr]
        rw [Function.update_noteq (Ne.symm hne)]
      · rw [stepR_bullet_ok env cr tok n s i c gt b hi hpc he hemp]
        show Function.update s.cycles c ⟨true, none⟩ a = s.cycles a
        rw [Function.update_noteq (Ne.symm hne)]
  | waitCycle c =>
    cases hev : (s.cycles c).eventSet with
    | false => rw [stepR_wait_pending env cr tok n s i c hi hpc hev]
    | true => rw [stepR_wait_wake env cr tok n s i c hi hpc hev]

/-- A step by caller j never changes another caller's program counter. -/
theorem stepR_pc_other (env : RefreshEnv) (cr : Bool) (tok : String) (n : Nat)
    (s : RState) (j i : Nat) (hne : i ≠ j) :
    (stepR env cr tok n s j).pc i = s.pc i := by
  by_cases hj : j < n
  swap
  · rw [stepR_eq_of_ge env cr tok n s j hj]
  cases hpcj : s.pc j with
  | done r => rw [stepR_eq_done env cr tok n s j r hj hpcj]
  | entry =>
    by_cases hcr : cr = false
    · rw [stepR_entry_noauth env cr tok n s j hj hpcj hcr]
      show Function.update s.pc j _ i = s.pc i
      rw [Function.update_noteq hne]
    · have hcr' : cr = true := by
        cases cr
        · exact absurd rfl hcr
        · rfl
      cases hr : s.isRefreshing with
      | true =>
        cases hcur : s.currentCycle with
        | some c =>
          rw [stepR_entry_join env cr tok n s j c hj hpcj hcr' hr hcur]
          show Function.update s.pc j _ i = s.pc i
          rw [Function.update_noteq hne]
        | none =>
          rw [stepR_entry_dead env cr tok n s j hj hpcj hcr' hr hcur]
          show Function.update s.pc j _ i = s.pc i
          rw [Function.update_noteq hne]
      | false =>
        rw [stepR_entry_start env cr tok n s j hj hpcj hcr' hr]
        show Function.update s.pc j _ i = s.pc i
        rw [Function.update_noteq hne]
  | execGtoken c =>
    cases he : env.gtokenRes s.gtokenCalls with
    | error e =>
      rw [stepR_gtoken_err env cr tok n s j c e hj hpcj he]
      simp only [finalizeErr]
      rw [Function.update_noteq hne]
    | ok gt =>
      by_cases hemp : gt.gToken = ""
      · rw [stepR_gtoken_empty env cr tok n s j c gt hj hpcj he hemp]
        simp only [finalizeErr]
        rw [Function.update_noteq hne]
      · rw [stepR_gtoken_ok env cr tok n s j c gt hj hpcj he hemp]
        show Function.update s.pc j (RPC.execBullet c gt) i = s.pc i
        rw [Function.update_noteq hne]
  | execBullet c gt =>
    cases he : env.bulletRes s.bulletCalls with
    | error e =>
      rw [stepR_bullet_err env cr tok n s j c gt e hj hpcj he]
      simp only [finalizeErr]
      rw [Function.update_noteq hne]
    | ok b =>
      by_cases hemp : b = ""
      · subst hemp
        rw [stepR_bullet_empty env cr tok n s j c gt hj hpcj he]
        simp only [finalizeErr]
        rw [Function.update_noteq hne]
      · rw [stepR_bullet_ok env cr tok n s j c gt b hj hpcj he hemp]
        show Function.update s.pc j (RPC.done (RResult.ok (some (mkTokenData tok gt b)))) i = s.pc i
        rw [Function.update_noteq hne]
  | waitCycle c =>
    cases hev : (s.cycles c).eventSet with
    | false => rw [stepR_wait_pending env cr tok n s j c hj hpcj hev]
    | true =>
      rw [stepR_wait_wake env cr tok n s j c hj hpcj hev]
      show Function.update s.pc j (RPC.done (cycleWaiterRes (s.cycles c))) i = s.pc i
      rw [Function.update_noteq hne]

/-- Every atomic block leaves an already-joined waiter joined to its captured cycle:
either still waiting, or finished with exactly that cycle's stored outcome. -/
theorem stepR_WaiterJoined (env : RefreshEnv) (cr : Bool) (tok : String) (n : Nat)
    (s : RState) (i a j : Nat) (hg : GInvR s) (hw : WaiterJoined i a s) :
    WaiterJoined i a (stepR env cr tok n s j) := by
  rcases hw with hw | ⟨hw, hev⟩
  · rcases eq_or_ne j i with rfl | hne
    · by_cases hj : j < n
      · cases hev : (s.cycles a).eventSet with
        | false =>
          rw [stepR_wait_pending env cr tok n s j a hj hw hev]
          exact .inl hw
        | true =>
          have hcyc := stepR_frozen env cr tok n s j a hg hev
          rw [stepR_wait_wake env cr tok n s j a hj hw hev] at hcyc ⊢
          refine .inr ⟨?_, by rw [hcyc]; exact hev⟩
          show Function.update s.pc j (.done (cycleWaiterRes (s.cycles a))) j =
            .done (cycleWaiterRes _)
          rw [Function.update_same, hcyc]
      · rw [stepR_eq_of_ge env cr tok n s j hj]
        exact .inl hw
    · left
      rw [stepR_pc_other env cr tok n s j i (Ne.symm hne)]
      exact hw
  · have hcyc := stepR_frozen env cr tok n s j a hg hev
    have hpci : (stepR env cr tok n s j).pc i = s.pc i := by
      rcases eq_or_ne i j with rfl | hne
      · by_cases hj : i < n
        · rw [stepR_eq_done env cr tok n s i _ hj hw]
        · rw [stepR_eq_of_ge env cr tok n s i hj]
      · exact stepR_pc_other env cr tok n s j i hne
    right
    refine ⟨?_, by rw [hcyc]; exact hev⟩
    rw [hpci, hcyc]
    exact hw

theorem stepsR_GInvR (env : RefreshEnv) (cr : Bool) (tok : String) (n : Nat)
    (sch : List Nat) (s : RState) (hg : GInvR s) :
    GInvR (stepsR env cr tok n s sch) := by
  induction sch generalizing s with
  | nil => exact hg
  | cons x xs ih => exact ih _ (stepR_GInvR env cr tok n s x hg)

theorem stepsR_WaiterJoined (env : RefreshEnv) (cr : Bool) (tok : String) (n : Nat)
    (sch : List Nat) (s : RState) (i a : Nat) (hg : GInvR s) (hw : WaiterJoined i a s) :
    WaiterJoined i a (stepsR env cr tok n s sch) := by
  induction sch generalizing s with
  | nil => exact hw
  | cons x xs ih =>
    exact ih _ (stepR_GInvR env cr tok n s x hg)
      (stepR_WaiterJoined env cr tok n s i a x hg hw)

/-- C2: cross-cycle error isolation.  A caller that was observed waiting on cycle a
(at any point of the run) and that finishes by raising e necessarily raised exactly
the error stored on that same cycle a — the cycle it captured under the lock — whose
event is set and whose stored error (by stepR_frozen) can never change again.  In
particular a waiter that joined a failed cycle A can never observe an error produced
by any later cycle B. -/
theorem c2_waiter_cycle_isolation (env : RefreshEnv) (cr : Bool) (tok : String)
    (n : Nat) (t0 : SelfTokens) (sch : List Nat) (k i a : Nat) (e : Exc)
    (hw : (runR env cr tok n t0 (sch.take k)).pc i = .waitCycle a)
    (hd : (runR env cr tok n t0 sch).pc i = .done (.exc e)) :
    ((runR env cr tok n t0 sch).cycles a).error = some e ∧
    ((runR env cr tok n t0 sch).cycles a).eventSet = true := by
  have hsplit : runR env cr tok n t0 sch =
      stepsR env cr tok n (runR env cr tok n t0 (sch.take k)) (sch.drop k) := by
    simp only [runR, stepsR]
    rw [← List.foldl_append, List.take_append_drop]
  have hg0 : GInvR (runR env cr tok n t0 (sch.take k)) :=
    stepsR_GInvR env cr tok n (sch.take k) (initR t0) (initR_GInvR t0)
  have hwj : WaiterJoined i a
      (stepsR env cr tok n (runR env cr tok n t0 (sch.take k)) (sch.drop k)) :=
    stepsR_WaiterJoined env cr tok n (sch.drop k) _ i a hg0 (.inl hw)
  rw [← hsplit] at hwj
  rcases hwj with hwj | ⟨hwj, hev⟩
  · rw [hd] at hwj
    exact absurd hwj (by simp)
  · rw [hd] at hwj
    have hres : RPC.done (.exc e) =
        RPC.done (cycleWaiterRes ((runR env cr tok n t0 sch).cycles a)) := hwj
    have hres' : (RResult.exc e) =
        cycleWaiterRes ((runR env cr tok n t0 sch).cycles a) := by
      injection hres
    cases herr : ((runR env cr tok n t0 sch).cycles a).error with
    | some e' =>
      rw [cycleWaiterRes, herr] at hres'
      have : e = e' := by injection hres'
      refine ⟨?_, hev⟩
      rw [this]
    | none =>
      rw [cycleWaiterRes, herr] at hres'
      exact absurd hres' (by simp)

/-- C2 witness: cycle A (callers 0 executes, 1 waits) fails with one error; its flag
is cleared and its error stored; cycle B (caller 2) then starts and fails with a
different error; A's waiter then wakes and reads exactly A's stored error, not B's. -/
theorem c2_waiter_cycle_isolation_witness :
    (((runR ⟨fun k => if k = 0 then .error (.sessionExpired "A died")
          else .error (.otherExc "B died"), fun _ => .ok "bt"⟩
        true "sess" 3 ⟨none, none, none, "zh-CN", "JP"⟩
        [0, 1, 0, 2, 2, 1]).cycles 0).error = some (.sessionExpired "A died") ∧
      ((runR ⟨fun k => if k = 0 then .error (.sessionExpired "A died")
          else .error (.otherExc "B died"), fun _ => .ok "bt"⟩
        true "sess" 3 ⟨none, none, none, "zh-CN", "JP"⟩
        [0, 1, 0, 2, 2, 1]).cycles 0).eventSet = true) ∧
    ((runR ⟨fun k => if k = 0 then .error (.sessionExpired "A died")
        else .error (.otherExc "B died"), fun _ => .ok "bt"⟩
      true "sess" 3 ⟨none, none, none, "zh-CN", "JP"⟩
      [0, 1, 0, 2, 2, 1]).cycles 1).error
        = some (.tokenRefreshExc "Token 刷新失败: B died") ∧
    (Exc.sessionExpired "A died") ≠ (Exc.tokenRefreshExc "Token 刷新失败: B died") :=
  ⟨c2_waiter_cycle_isolation
      ⟨fun k => if k = 0 then .error (.sessionExpired "A died")
        else .error (.otherExc "B died"), fun _ => .ok "bt"⟩
      true "sess" 3 ⟨none, none, none, "zh-CN", "JP"⟩
      [0, 1, 0, 2, 2, 1] 2 1 0 (.sessionExpired "A died") (by decide) (by decide),
   by decide, by decide⟩

/-! ### Characterization lemmas and invariant for the request coordinator -/

theorem stepQ_eq_of_ge (env : QEnv) (n : Nat) (s : QState) (i : Nat) (h : ¬ i < n) :
    stepQ env n s i = s := by
  simp [stepQ, h]

theorem stepQ_eq_done (env : QEnv) (n : Nat) (s : QState) (i : Nat) (r : QResult)
    (hi : i < n) (h : s.pc i = .done r) :
    stepQ env n s i = s := by
  simp [stepQ, hi, h]

theorem stepQ_entry_join (env : QEnv) (n : Nat) (s : QState) (i : Nat) (key : String)
    (c : Nat) (hi : i < n) (hpc : s.pc i = .entry key) (hk : s.inflight key = some c) :
    stepQ env n s i = { s with pc := Function.update s.pc i (.waitCycle c) } := by
  simp [stepQ, hi, hpc, hk]

theorem stepQ_entry_start (env : QEnv) (n : Nat) (s : QState) (i : Nat) (key : String)
    (hi : i < n) (hpc : s.pc i = .entry key) (hk : s.inflight key = none) :
    stepQ env n s i =
      { s with inflight := Function.update s.inflight key (some s.nextCycle)
               cycles := Function.update s.cycles s.nextCycle ⟨false, none, none⟩
               nextCycle := s.nextCycle + 1
               pc := Function.update s.pc i (.running key s.nextCycle) } := by
  simp [stepQ, hi, hpc, hk]

theorem stepQ_run_ok (env : QEnv) (n : Nat) (s : QState) (i : Nat) (key : String)
    (c : Nat) (v : String) (hi : i < n) (hpc : s.pc i = .running key c)
    (he : env.funcRes s.funcCalls = .ok v) :
    stepQ env n s i =
      { s with funcCalls := s.funcCalls + 1
               cycles := Function.update s.cycles c ⟨true, some v, none⟩
               inflight := Function.update s.inflight key none
               pc := Function.update s.pc i (.done (.ok (some v))) } := by
  simp [stepQ, hi, hpc, he]

theorem stepQ_run_err (env : QEnv) (n : Nat) (s : QState) (i : Nat) (key : String)
    (c : Nat) (e : Exc) (hi : i < n) (hpc : s.pc i = .running key c)
    (he : env.funcRes s.funcCalls = .error e) :
    stepQ env n s i =
      { s with funcCalls := s.funcCalls + 1
               cycles := Function.update s.cycles c ⟨true, none, some e⟩
               inflight := Function.update s.inflight key none
               pc := Function.update s.pc i (.done (.exc e)) } := by
  simp [stepQ, hi, hpc, he]

theorem stepQ_wait_pending (env : QEnv) (n : Nat) (s : QState) (i c : Nat)
    (hi : i < n) (hpc : s.pc i = .waitCycle c) (hev : (s.cycles c).eventSet = false) :
    stepQ env n s i = s := by
  simp [stepQ, hi, hpc, hev]

theorem stepQ_wait_wake_err (env : QEnv) (n : Nat) (s : QState) (i c : Nat) (e : Exc)
    (hi : i < n) (hpc : s.pc i = .waitCycle c) (hev : (s.cycles c).eventSet = true)
    (herr : (s.cycles c).error = some e) :
    stepQ env n s i = { s with pc := Function.update s.pc i (.done (.exc e)) } := by
  simp [stepQ, hi, hpc, hev, herr]

theorem stepQ_wait_wake_ok (env : QEnv) (n : Nat) (s : QState) (i c : Nat)
    (hi : i < n) (hpc : s.pc i = .waitCycle c) (hev : (s.cycles c).eventSet = true)
    (herr : (s.cycles c).error = none) :
    stepQ env n s i =
      { s with pc := Function.update s.pc i (.done (.ok (s.cycles c).result)) } := by
  simp [stepQ, hi, hpc, hev, herr]

theorem initQ_GInvQ (keys : Nat → String) : GInvQ (initQ keys) := by
  refine ⟨fun c _ => rfl, ?_, ?_, ?_, ?_⟩
  · intro k c h
    simp [initQ] at h
  · intro k c h
    simp [initQ] at h
  · intro i k c h
    simp [initQ] at h
  · intro i j k k' c h _
    simp [initQ] at h

/-- A pc-only update whose old and new values are both non-running states preserves
the request coordinator invariant. -/
theorem GInvQ_update_nonrun (s : QState) (i : Nat) (x : QPC) (hg : GInvQ s)
    (hold : ∀ k c, s.pc i ≠ .running k c) (hnew : ∀ k c, x ≠ .running k c) :
    GInvQ { s with pc := Function.update s.pc i x } := by
  obtain ⟨fresh, freshMap, mapRun, runMap, runUniq⟩ := hg
  refine ⟨fresh, freshMap, ?_, ?_, ?_⟩
  · intro k c hk
    obtain ⟨j, hj⟩ := mapRun k c hk
    have hji : j ≠ i := fun h => hold k c (h ▸ hj)
    exact ⟨j, by
      show Function.update s.pc i x j = .running k c
      rw [Function.update_noteq hji]
      exact hj⟩
  · intro j k c hj
    have hj' : Function.update s.pc i x j = .running k c := hj
    rcases eq_or_ne j i with rfl | hne
    · rw [Function.update_same] at hj'
      exact absurd hj' (hnew k c)
    · rw [Function.update_noteq hne] at hj'
      exact runMap j k c hj'
  · intro j j' k k' c hj hj'
    have hj1 : Function.update s.pc i x j = .running k c := hj
    have hj2 : Function.update s.pc i x j' = .running k' c := hj'
    rcases eq_or_ne j i with rfl | hne
    · rw [Function.update_same] at hj1
      exact absurd hj1 (hnew k c)
    · rcases eq_or_ne j' i with rfl | hne'
      · rw [Function.update_same] at hj2
        exact absurd hj2 (hnew k' c)
      · rw [Function.update_noteq hne] at hj1
        rw [Function.update_noteq hne'] at hj2
        exact runUniq j j' k k' c hj1 hj2

/-- Every atomic block of the request coordinator preserves the invariant. -/
theorem stepQ_GInvQ (env : QEnv) (n : Nat) (s : QState) (i : Nat) (hg : GInvQ s) :
    GInvQ (stepQ env n s i) := by
  by_cases hi : i < n
  swap
  · rw [stepQ_eq_of_ge env n s i hi]; exact hg
  obtain ⟨fresh, freshMap, mapRun, runMap, runUniq⟩ := hg
  cases hpc : s.pc i with
  | done r =>
    rw [stepQ_eq_done env n s i r hi hpc]
    exact ⟨fresh, freshMap, mapRun, runMap, runUniq⟩
  | waitCycle c =>
    cases hev : (s.cycles c).eventSet with
    | false =>
      rw [stepQ_wait_pending env n s i c hi hpc hev]
      exact ⟨fresh, freshMap, mapRun, runMap, runUniq⟩
    | true =>
      cases herr : (s.cycles c).error with
      | some e =>
        rw [stepQ_wait_wake_err env n s i c e hi hpc hev herr]
        exact GInvQ_update_nonrun s i _ ⟨fresh, freshMap, mapRun, runMap, runUniq⟩
          (fun k c' h => by rw [hpc] at h; exact absurd h (by simp))
          (fun k c' h => by exact absurd h (by simp))
      | none =>
        rw [stepQ_wait_wake_ok env n s i c hi hpc hev herr]
        exact GInvQ_update_nonrun s i _ ⟨fresh, freshMap, mapRun, runMap, runUniq⟩
          (fun k c' h => by rw [hpc] at h; exact absurd h (by simp))
          (fun k c' h => by exact absurd h (by simp))
  | entry key =>
    cases hk : s.inflight key with
    | some c =>
      rw [stepQ_entry_join env n s i key c hi hpc hk]
      exact GInvQ_update_nonrun s i _ ⟨fresh, freshMap, mapRun, runMap, runUniq⟩
        (fun k c' h => by rw [hpc] at h; exact absurd h (by simp))
        (fun k c' h => by exact absurd h (by simp))
    | none =>
      rw [stepQ_entry_start env n s i key hi hpc hk]
      refine ⟨?_, ?_, ?_, ?_, ?_⟩
      · intro c hc
        have hc' : s.nextCycle ≤ c := Nat.le_of_succ_le hc
        show Function.update s.cycles s.nextCycle ⟨false, none, none⟩ c = ⟨false, none, none⟩
        rw [Function.update_noteq (Ne.symm (Nat.ne_of_lt hc))]
        exact fresh c hc'
      · intro k c hkc
        have hkc' : Function.update s.inflight key (some s.nextCycle) k = some c := hkc
        rcases eq_or_ne k key with rfl | hne
        · rw [Function.update_same] at hkc'
          have : c = s.nextCycle := (Option.some.inj hkc').symm
          subst this
          exact Nat.lt_succ_self _
        · rw [Function.update_noteq hne] at hkc'
          exact Nat.lt_succ_of_lt (freshMap k c hkc')
      · intro k c hkc
        have hkc' : Function.update s.inflight key (some s.nextCycle) k = some c := hkc
        rcases eq_or_ne k key with rfl | hne
        · rw [Function.update_same] at hkc'
          have : c = s.nextCycle := (Option.some.inj hkc').symm
          subst this
          refine ⟨i, ?_⟩
          show Function.update s.pc i (.running k s.nextCycle) i = .running k s.nextCycle
          rw [Function.update_same]
        · rw [Function.update_noteq hne] at hkc'
          obtain ⟨j, hj⟩ := mapRun k c hkc'
          have hji : j ≠ i := fun h => by rw [h, hpc] at hj; exact absurd hj (by simp)
          refine ⟨j, ?_⟩
          show Function.update s.pc i (.running key s.nextCycle) j = .running k c
          rw [Function.update_noteq hji]
          exact hj
      · intro j k c hj
        have hj' : Function.update s.pc i (.running key s.nextCycle) j = .running k c := hj
        rcases eq_or_ne j i with rfl | hne
        · rw [Function.update_same] at hj'
          obtain ⟨hkk, hcc⟩ := QPC.running.inj hj'
          subst hkk
          subst hcc
          constructor
          · show Function.update s.inflight key (some s.nextCycle) key = some s.nextCycle
            rw [Function.update_same]
          · show (Function.update s.cycles s.nextCycle ⟨false, none, none⟩ s.nextCycle).eventSet
              = false
            rw [Function.update_same]
        · rw [Function.update_noteq hne] at hj'
          obtain ⟨hmap, hev⟩ := runMap j k c hj'
          have hkne : k ≠ key := fun h => by rw [h, hk] at hmap; exact absurd hmap (by simp)
          have hcne : c ≠ s.nextCycle := Nat.ne_of_lt (freshMap k c hmap)
          constructor
          · show Function.update s.inflight key (some s.nextCycle) k = some c
            rw [Function.update_noteq hkne]
            exact hmap
          · show (Function.update s.cycles s.nextCycle ⟨false, none, none⟩ c).eventSet = false
            rw [Function.update_noteq hcne]
            exact hev
      · intro j j' k k' c hj hj'
        have hj1 : Function.update s.pc i (.running key s.nextCycle) j = .running k c := hj
        have hj2 : Function.update s.pc i (.running key s.nextCycle) j' = .running k' c := hj'
        rcases eq_or_ne j i with rfl | hne
        · rcases eq_or_ne j' j with rfl | hne'
          · rfl
          · rw [Function.update_same] at hj1
            have hcc : c = s.nextCycle := by injection hj1 with h1 h2; exact h2.symm
            rw [Function.update_noteq hne'] at hj2
            have := (runMap j' k' c hj2).1
            rw [hcc] at this
            exact absurd (freshMap k' s.nextCycle this) (Nat.lt_irrefl _)
        · rcases eq_or_ne j' i with rfl | hne'
          · rw [Function.update_same] at hj2
            have hcc : c = s.nextCycle := by injection hj2 with h1 h2; exact h2.symm
            rw [Function.update_noteq hne] at hj1
            have := (runMap j k c hj1).1
            rw [hcc] at this
            exact absurd (freshMap k s.nextCycle this) (Nat.lt_irrefl _)
          · rw [Function.update_noteq hne] at hj1
            rw [Function.update_noteq hne'] at hj2
            exact runUniq j j' k k' c hj1 hj2
  | running key c =>
    have hrm := runMap i key c hpc
    have hclt : c < s.nextCycle := freshMap key c hrm.1
    cases he : env.funcRes s.funcCalls with
    | ok v =>
      rw [stepQ_run_ok env n s i key c v hi hpc he]
      refine ⟨?_, ?_, ?_, ?_, ?_⟩
      · intro c' hc'
        show Function.update s.cycles c ⟨true, some v, none⟩ c' = ⟨false, none, none⟩
        rw [Function.update_noteq (Ne.symm (Nat.ne_of_lt (Nat.lt_of_lt_of_le hclt hc')))]
        exact fresh c' hc'
      · intro k' c' hkc
        have hkc' : Function.update s.inflight key none k' = some c' := hkc
        rcases eq_or_ne k' key with rfl | hne
        · rw [Function.update_same] at hkc'
          exact absurd hkc' (by simp)
        · rw [Function.update_noteq hne] at hkc'
          exact freshMap k' c' hkc'
      · intro k' c' hkc
        have hkc' : Function.update s.inflight key none k' = some c' := hkc
        rcases eq_or_ne k' key with rfl | hne
        · rw [Function.update_same] at hkc'
          exact absurd hkc' (by simp)
        · rw [Function.update_noteq hne] at hkc'
          obtain ⟨j, hj⟩ := mapRun k' c' hkc'
          have hji : j ≠ i := fun h => by
            rw [h, hpc] at hj
            exact hne ((QPC.running.inj hj).1).symm
          refine ⟨j, ?_⟩
          show Function.update s.pc i (.done (.ok (some v))) j = .running k' c'
          rw [Function.update_noteq hji]
          exact hj
      · intro j k' c' hj
        have hj' : Function.update s.pc i (.done (.ok (some v))) j = .running k' c' := hj
        rcases eq_or_ne j i with rfl | hne
        · rw [Function.update_same] at hj'
          exact absurd hj' (by simp)
        · rw [Function.update_noteq hne] at hj'
          obtain ⟨hmap, hev⟩ := runMap j k' c' hj'
          have hkne : k' ≠ key := fun h => by
            rw [h] at hmap
            rw [hmap] at hrm
            have : c' = c := by injection hrm.1
            subst this
            exact hne (runUniq j i k' key c' hj' hpc)
          have hcne : c' ≠ c := fun h => hne (runUniq j i k' key c' hj' (h ▸ hpc))
          constructor
          · show Function.update s.inflight key none k' = some c'
            rw [Function.update_noteq hkne]
            exact hmap
          · show (Function.update s.cycles c ⟨true, some v, none⟩ c').eventSet = false
            rw [Function.update_noteq hcne]
            exact hev
      · intro j j' k1 k2 c' hj hj'
        have hj1 : Function.update s.pc i (.done (.ok (some v))) j = .running k1 c' := hj
        have hj2 : Function.update s.pc i (.done (.ok (some v))) j' = .running k2 c' := hj'
        rcases eq_or_ne j i with rfl | hne
        · rw [Function.update_same] at hj1
          exact absurd hj1 (by simp)
        · rcases eq_or_ne j' i with rfl | hne'
          · rw [Function.update_same] at hj2
            exact absurd hj2 (by simp)
          · rw [Function.update_noteq hne] at hj1
            rw [Function.update_noteq hne'] at hj2
            exact runUniq j j' k1 k2 c' hj1 hj2
    | error e =>
      rw [stepQ_run_err env n s i key c e hi hpc he]
      refine ⟨?_, ?_, ?_, ?_, ?_⟩
      · intro c' hc'
        show Function.update s.cycles c ⟨true, none, some e⟩ c' = ⟨false, none, none⟩
        rw [Function.update_noteq (Ne.symm (Nat.ne_of_lt (Nat.lt_of_lt_of_le hclt hc')))]
        exact fresh c' hc'
      · intro k' c' hkc
        have hkc' : Function.update s.inflight key none k' = some c' := hkc
        rcases eq_or_ne k' key with rfl | hne
        · rw [Function.update_same] at hkc'
          exact absurd hkc' (by simp)
        · rw [Function.update_noteq hne] at hkc'
          exact freshMap k' c' hkc'
      · intro k' c' hkc
        have hkc' : Function.update s.inflight key none k' = some c' := hkc
        rcases eq_or_ne k' key with rfl | hne
        · rw [Function.update_same] at hkc'
          exact absurd hkc' (by simp)
        · rw [Function.update_noteq hne] at hkc'
          obtain ⟨j, hj⟩ := mapRun k' c' hkc'
          have hji : j ≠ i := fun h => by
            rw [h, hpc] at hj
            exact hne ((QPC.running.inj hj).1).symm
          refine ⟨j, ?_⟩
          show Function.update s.pc i (.done (.exc e)) j = .running k' c'
          rw [Function.update_noteq hji]
          exact hj
      · intro j k' c' hj
        have hj' : Function.update s.pc i (.done (.exc e)) j = .running k' c' := hj
        rcases eq_or_ne j i with rfl | hne
        · rw [Function.update_same] at hj'
          exact absurd hj' (by simp)
        · rw [Function.update_noteq hne] at hj'
          obtain ⟨hmap, hev⟩ := runMap j k' c' hj'
          have hkne : k' ≠ key := fun h => by
            rw [h] at hmap
            rw [hmap] at hrm
            have : c' = c := by injection hrm.1
            subst this
            exact hne (runUniq j i k' key c' hj' hpc)
          have hcne : c' ≠ c := fun h => hne (runUniq j i k' key c' hj' (h ▸ hpc))
          constructor
          · show Function.update s.inflight key none k' = some c'
            rw [Function.update_noteq hkne]
            exact hmap
          · show (Function.update s.cycles c ⟨true, none, some e⟩ c').eventSet = false
            rw [Function.update_noteq hcne]
            exact hev
      · intro j j' k1 k2 c' hj hj'
        have hj1 : Function.update s.pc i (.done (.exc e)) j = .running k1 c' := hj
        have hj2 : Function.update s.pc i (.done (.exc e)) j' = .running k2 c' := hj'
        rcases eq_or_ne j i with rfl | hne
        · rw [Function.update_same] at hj1
          exact absurd hj1 (by simp)
        · rcases eq_or_ne j' i with rfl | hne'
          · rw [Function.update_same] at hj2
            exact absurd hj2 (by simp)
          · rw [Function.update_noteq hne] at hj1
            rw [Function.update_noteq hne'] at hj2
            exact runUniq j j' k1 k2 c' hj1 hj2

theorem runQ_GInvQ (env : QEnv) (n : Nat) (keys : Nat → String) (sch : List Nat) :
    GInvQ (runQ env n keys sch) := by
  suffices h : ∀ (s : QState), GInvQ s → GInvQ (sch.foldl (stepQ env n) s) from
    h (initQ keys) (initQ_GInvQ keys)
  induction sch with
  | nil => exact fun s hs => hs
  | cons x xs ih => exact fun s hs => ih _ (stepQ_GInvQ env n s x hs)

theorem runR_GInvR (env : RefreshEnv) (cr : Bool) (tok : String) (n : Nat)
    (t0 : SelfTokens) (sch : List Nat) :
    GInvR (runR env cr tok n t0 sch) :=
  stepsR_GInvR env cr tok n sch (initR t0) (initR_GInvR t0)

/-- C3: completed cycles are never reused.  Refresh side: in every reachable state,
a cleared in-progress flag means no executor is in flight, at most one executor ever
exists at an instant, and a caller whose entry block runs with the flag cleared
becomes the executor of a brand-new cycle — distinct from every completed cycle —
whose next block performs a new underlying get_gtoken call.  Request side: in every
reachable state the in-flight map holds only cycles whose event is not yet set (the finally
block pops the key in the same atomic block that completes the cycle), at most one
caller runs any given cycle, and a caller whose entry block finds its key absent
registers a brand-new cycle — distinct from every completed cycle — and then performs
a new underlying call. -/
theorem c3_completed_cycles_not_reused
    (env : RefreshEnv) (tok : String) (n : Nat) (t0 : SelfTokens) (sch : List Nat)
    (i : Nat) (qenv : QEnv) (m : Nat) (keys : Nat → String) (qsch : List Nat)
    (j : Nat) (key : String) :
    (((runR env true tok n t0 sch).isRefreshing = false →
        ∀ i' c, ¬ isExecAt ((runR env true tok n t0 sch).pc i') c) ∧
     (∀ i' i'' c c', isExecAt ((runR env true tok n t0 sch).pc i') c →
        isExecAt ((runR env true tok n t0 sch).pc i'') c' → i' = i'') ∧
     (i < n → (runR env true tok n t0 sch).pc i = .entry →
      (runR env true tok n t0 sch).isRefreshing = false →
      (stepR env true tok n (runR env true tok n t0 sch) i).pc i
          = .execGtoken (runR env true tok n t0 sch).nextCycle ∧
      (∀ c, ((runR env true tok n t0 sch).cycles c).eventSet = true →
          c ≠ (runR env true tok n t0 sch).nextCycle) ∧
      (stepR env true tok n (stepR env true tok n (runR env true tok n t0 sch) i) i).gtokenCalls
          = (runR env true tok n t0 sch).gtokenCalls + 1)) ∧
    ((∀ k c, (runQ qenv m keys qsch).inflight k = some c →
        ((runQ qenv m keys qsch).cycles c).eventSet = false) ∧
     (∀ j' j'' k' k'' c, (runQ qenv m keys qsch).pc j' = .running k' c →
        (runQ qenv m keys qsch).pc j'' = .running k'' c → j' = j'') ∧
     (j < m → (runQ qenv m keys qsch).pc j = .entry key →
      (runQ qenv m keys qsch).inflight key = none →
      (stepQ qenv m (runQ qenv m keys qsch) j).pc j
          = .running key (runQ qenv m keys qsch).nextCycle ∧
      (∀ c, ((runQ qenv m keys qsch).cycles c).eventSet = true →
          c ≠ (runQ qenv m keys qsch).nextCycle) ∧
      (stepQ qenv m (stepQ qenv m (runQ qenv m keys qsch) j) j).funcCalls
          = (runQ qenv m keys qsch).funcCalls + 1)) := by
  have hgR := runR_GInvR env true tok n t0 sch
  have hgQ := runQ_GInvQ qenv m keys qsch
  constructor
  · refine ⟨?_, ?_, ?_⟩
    · intro hflag i' c hex
      have := (hgR.execCur i' c hex).1
      rw [hflag] at this
      simp at this
    · intro i' i'' c c' h1 h2
      exact hgR.execUniq i' i'' c c' h1 h2
    · intro hi hpc hflag
      have hstart := stepR_entry_start env true tok n (runR env true tok n t0 sch) i hi hpc
        rfl hflag
      refine ⟨?_, ?_, ?_⟩
      · rw [hstart]
        show Function.update (runR env true tok n t0 sch).pc i
            (.execGtoken (runR env true tok n t0 sch).nextCycle) i = _
        rw [Function.update_same]
      · intro c hc hcn
        have := hgR.fresh c (le_of_eq hcn.symm)
        rw [this] at hc
        simp at hc
      · have hpc1 : (stepR env true tok n (runR env true tok n t0 sch) i).pc i
            = .execGtoken (runR env true tok n t0 sch).nextCycle := by
          rw [hstart]
          show Function.update (runR env true tok n t0 sch).pc i
              (.execGtoken (runR env true tok n t0 sch).nextCycle) i = _
          rw [Function.update_same]
        have hg1 : (stepR env true tok n (runR env true tok n t0 sch) i).gtokenCalls
            = (runR env true tok n t0 sch).gtokenCalls := by
          rw [hstart]
        cases he : env.gtokenRes (stepR env true tok n (runR env true tok n t0 sch) i).gtokenCalls
          with
        | error e =>
          rw [stepR_gtoken_err env true tok n _ i _ e hi hpc1 he]
          simp only [finalizeErr]
          rw [hg1]
        | ok gt =>
          by_cases hemp : gt.gToken = ""
          · rw [stepR_gtoken_empty env true tok n _ i _ gt hi hpc1 he hemp]
            simp only [finalizeErr]
            rw [hg1]
          · rw [stepR_gtoken_ok env true tok n _ i _ gt hi hpc1 he hemp]
            show (stepR env true tok n (runR env true tok n t0 sch) i).gtokenCalls + 1 = _
            rw [hg1]
  · refine ⟨?_, ?_, ?_⟩
    · intro k c hk
      exact (hgQ.runMap _ k c (hgQ.mapRun k c hk).choose_spec).2
    · intro j' j'' k' k'' c h1 h2
      exact hgQ.runUniq j' j'' k' k'' c h1 h2
    · intro hj hpc hk
      have hstart := stepQ_entry_start qenv m (runQ qenv m keys qsch) j key hj hpc hk
      refine ⟨?_, ?_, ?_⟩
      · rw [hstart]
        show Function.update (runQ qenv m keys qsch).pc j
            (.running key (runQ qenv m keys qsch).nextCycle) j = _
        rw [Function.update_same]
      · intro c hc hcn
        have := hgQ.fresh c (le_of_eq hcn.symm)
        rw [this] at hc
        simp at hc
      · have hpc1 : (stepQ qenv m (runQ qenv m keys qsch) j).pc j
            = .running key (runQ qenv m keys qsch).nextCycle := by
          rw [hstart]
          show Function.update (runQ qenv m keys qsch).pc j
              (.running key (runQ qenv m keys qsch).nextCycle) j = _
          rw [Function.update_same]
        have hg1 : (stepQ qenv m (runQ qenv m keys qsch) j).funcCalls
            = (runQ qenv m keys qsch).funcCalls := by
          rw [hstart]
        cases he : qenv.funcRes (stepQ qenv m (runQ qenv m keys qsch) j).funcCalls with
        | ok v =>
          rw [stepQ_run_ok qenv m _ j key _ v hj hpc1 he]
          show (stepQ qenv m (runQ qenv m keys qsch) j).funcCalls + 1 = _
          rw [hg1]
        | error e =>
          rw [stepQ_run_err qenv m _ j key _ e hj hpc1 he]
          show (stepQ qenv m (runQ qenv m keys qsch) j).funcCalls + 1 = _
          rw [hg1]

/-- C3 witness: after caller 0's refresh cycle completes, caller 1 (still at entry)
starts cycle 1 and issues a second get_gtoken call; after caller 0's request cycle on
key "K" completes and is popped, caller 1 with the same key starts cycle 1 and issues
a second network call. -/
theorem c3_completed_cycles_not_reused_witness :
    (stepR ⟨fun _ => .ok ⟨"at", "gt", "nick", "zh-CN", "JP", "ui"⟩, fun _ => .ok "bt"⟩
        true "sess" 2
        (runR ⟨fun _ => .ok ⟨"at", "gt", "nick", "zh-CN", "JP", "ui"⟩, fun _ => .ok "bt"⟩
          true "sess" 2 ⟨none, none, none, "zh-CN", "JP"⟩ [0, 0, 0]) 1).pc 1
      = .execGtoken 1 ∧
    (stepQ ⟨fun k => .ok (toString k)⟩ 2
        (runQ ⟨fun k => .ok (toString k)⟩ 2 (fun _ => "K") [0, 0]) 1).pc 1
      = .running "K" 1 ∧
    (runQ ⟨fun k => .ok (toString k)⟩ 2 (fun _ => "K") [0, 0]).inflight "K" = none := by
  have h := c3_completed_cycles_not_reused
    ⟨fun _ => .ok ⟨"at", "gt", "nick", "zh-CN", "JP", "ui"⟩, fun _ => .ok "bt"⟩
    "sess" 2 ⟨none, none, none, "zh-CN", "JP"⟩ [0, 0, 0] 1
    ⟨fun k => .ok (toString k)⟩ 2 (fun _ => "K") [0, 0] 1 "K"
  refine ⟨?_, ?_, by decide⟩
  · have h1 := (h.1.2.2 (by decide) (by decide) (by decide)).1
    have hnc : (runR ⟨fun _ => .ok ⟨"at", "gt", "nick", "zh-CN", "JP", "ui"⟩,
        fun _ => .ok "bt"⟩ true "sess" 2 ⟨none, none, none, "zh-CN", "JP"⟩
        [0, 0, 0]).nextCycle = 1 := by decide
    rw [hnc] at h1
    exact h1
  · have h2 := (h.2.2.2 (by decide) (by decide) (by decide)).1
    have hnc : (runQ ⟨fun k => .ok (toString k)⟩ 2 (fun _ => "K") [0, 0]).nextCycle = 1 := by
      decide
    rw [hnc] at h2
    exact h2

/-! ### C1: single-flight refresh under concurrent callers -/

theorem cycleWaiterRes_errOf (b : Bool) (o : Except Exc TokenData) :
    cycleWaiterRes ⟨b, errOf o⟩ = waiterResultOf o := by
  cases o <;> simp [cycleWaiterRes, errOf, waiterResultOf]

theorem stepR_preserves_InvC1 (env : RefreshEnv) (tok : String) (n : Nat)
    (s : RState) (i : Nat) (hinv : InvC1 env tok n s)
    (hconc : i < n → s.pc i = .entry → s.isRefreshing = true ∨ s.nextCycle = 0) :
    InvC1 env tok n (stepR env true tok n s i) := by
  by_cases hi : i < n
  swap
  · rw [stepR_eq_of_ge env true tok n s i hi]; exact hinv
  rcases hinv with hA | hB | hC
  · -- Phase A: the stepped caller becomes the executor of cycle 0
    obtain ⟨hfl, hcur, hnc, hcy, hg, hb, hpc⟩ := hA
    rw [stepR_entry_start env true tok n s i hi (hpc i) rfl hfl]
    right; left
    refine ⟨rfl, by simp [hnc], by simp [hnc], ?_, hb, i, hi, ?_, ?_⟩
    · intro c
      show Function.update s.cycles s.nextCycle ⟨false, none⟩ c = ⟨false, none⟩
      by_cases hc : c = s.nextCycle
      · rw [hc, Function.update_same]
      · rw [Function.update_noteq hc]; exact hcy c
    · left
      constructor
      · show Function.update s.pc i (.execGtoken s.nextCycle) i = .execGtoken 0
        rw [Function.update_same, hnc]
      · exact hg
    · intro j hj
      dsimp only
      rw [Function.update_noteq hj]
      exact .inl (hpc j)
  · -- Phase B
    obtain ⟨hfl, hcur, hnc, hcy, hb, e, he, hsub, hoth⟩ := hB
    rcases eq_or_ne i e with rfl | hie
    · -- the executor steps
      rcases hsub with ⟨hpce, hg0⟩ | ⟨gt, hpce, hg1, hgt, hgne⟩
      · -- executor at the get_gtoken await
        cases henv : env.gtokenRes s.gtokenCalls with
        | error ee =>
          have henv0 : env.gtokenRes 0 = .error ee := hg0 ▸ henv
          have hout : refreshOutcome env tok = .error (classifyRefreshExc ee) := by
            simp [refreshOutcome, henv0]
          rw [stepR_gtoken_err env true tok n s i 0 ee hi hpce henv]
          right; right
          refine ⟨rfl, hcur, hnc, ?_, ?_, by simp [finalizeErr, hg0], ?_, ?_, i, hi, ?_, ?_⟩
          · show Function.update s.cycles 0 ⟨true, some (classifyRefreshExc ee)⟩ 0 = _
            rw [Function.update_same, hout]
            rfl
          · intro c hc
            show Function.update s.cycles 0 ⟨true, some (classifyRefreshExc ee)⟩ c = _
            rw [Function.update_noteq hc]
            exact hcy c
          · show s.bulletCalls = bulletCallsOf env
            rw [hb]
            simp [bulletCallsOf, henv0]
          · intro td htd
            rw [hout] at htd
            exact absurd htd (by simp)
          · show Function.update s.pc i (.done (.exc (classifyRefreshExc ee))) i = _
            rw [Function.update_same, hout]
            rfl
          · intro j hj
            dsimp only [finalizeErr]
            rw [Function.update_noteq hj]
            rcases hoth j hj with h | h
            · exact .inl h
            · exact .inr (.inl h)
        | ok gt =>
          have henv0 : env.gtokenRes 0 = .ok gt := hg0 ▸ henv
          by_cases hemp : gt.gToken = ""
          · have hout : refreshOutcome env tok =
                .error (classifyRefreshExc (.tokenRefreshExc "Failed to get g_token")) := by
              simp [refreshOutcome, henv0, hemp]
            rw [stepR_gtoken_empty env true tok n s i 0 gt hi hpce henv hemp]
            right; right
            refine ⟨rfl, hcur, hnc, ?_, ?_, by simp [finalizeErr, hg0], ?_, ?_, i, hi, ?_, ?_⟩
            · show Function.update s.cycles 0
                ⟨true, some (classifyRefreshExc (.tokenRefreshExc "Failed to get g_token"))⟩ 0
                  = _
              rw [Function.update_same, hout]
              rfl
            · intro c hc
              show Function.update s.cycles 0 _ c = _
              rw [Function.update_noteq hc]
              exact hcy c
            · show s.bulletCalls = bulletCallsOf env
              rw [hb]
              simp [bulletCallsOf, henv0, hemp]
            · intro td htd
              rw [hout] at htd
              exact absurd htd (by simp)
            · show Function.update s.pc i
                (.done (.exc (classifyRefreshExc (.tokenRefreshExc "Failed to get g_token")))) i
                  = _
              rw [Function.update_same, hout]
              rfl
            · intro j hj
              dsimp only [finalizeErr]
              rw [Function.update_noteq hj]
              rcases hoth j hj with h | h
              · exact .inl h
              · exact .inr (.inl h)
          · rw [stepR_gtoken_ok env true tok n s i 0 gt hi hpce henv hemp]
            right; left
            refine ⟨hfl, hcur, hnc, hcy, hb, i, hi, ?_, ?_⟩
            · right
              refine ⟨gt, ?_, by simp [finalizeErr, hg0], henv0, hemp⟩
              show Function.update s.pc i (.execBullet 0 gt) i = _
              rw [Function.update_same]
            · intro j hj
              dsimp only
              rw [Function.update_noteq hj]
              exact hoth j hj
      · -- executor at the get_bullet await
        cases henv : env.bulletRes s.bulletCalls with
        | error ee =>
          have henv0 : env.bulletRes 0 = .error ee := hb ▸ henv
          have hout : refreshOutcome env tok = .error (classifyRefreshExc ee) := by
            simp [refreshOutcome, hgt, hgne, henv0]
          rw [stepR_bullet_err env true tok n s i 0 gt ee hi hpce henv]
          right; right
          refine ⟨rfl, hcur, hnc, ?_, ?_, by simp [finalizeErr, hg1], ?_, ?_, i, hi, ?_, ?_⟩
          · show Function.update s.cycles 0 ⟨true, some (classifyRefreshExc ee)⟩ 0 = _
            rw [Function.update_same, hout]
            rfl
          · intro c hc
            show Function.update s.cycles 0 _ c = _
            rw [Function.update_noteq hc]
            exact hcy c
          · show s.bulletCalls + 1 = bulletCallsOf env
            rw [hb]
            simp [bulletCallsOf, hgt, hgne]
          · intro td htd
            rw [hout] at htd
            exact absurd htd (by simp)
          · show Function.update s.pc i (.done (.exc (classifyRefreshExc ee))) i = _
            rw [Function.update_same, hout]
            rfl
          · intro j hj
            dsimp only [finalizeErr]
            rw [Function.update_noteq hj]
            rcases hoth j hj with h | h
            · exact .inl h
            · exact .inr (.inl h)
        | ok b =>
          have henv0 : env.bulletRes 0 = .ok b := hb ▸ henv
          by_cases hbemp : b = ""
          · subst hbemp
            have hout : refreshOutcome env tok =
                .error (classifyRefreshExc (.tokenRefreshExc "Failed to get bullet_token")) := by
              simp [refreshOutcome, hgt, hgne, henv0]
            rw [stepR_bullet_empty env true tok n s i 0 gt hi hpce henv]
            right; right
            refine ⟨rfl, hcur, hnc, ?_, ?_, by simp [finalizeErr, hg1], ?_, ?_, i, hi, ?_, ?_⟩
            · show Function.update s.cycles 0
                ⟨true, some (classifyRefreshExc (.tokenRefreshExc "Failed to get bullet_token"))⟩
                  0 = _
              rw [Function.update_same, hout]
              rfl
            · intro c hc
              show Function.update s.cycles 0 _ c = _
              rw [Function.update_noteq hc]
              exact hcy c
            · show s.bulletCalls + 1 = bulletCallsOf env
              rw [hb]
              simp [bulletCallsOf, hgt, hgne]
            · intro td htd
              rw [hout] at htd
              exact absurd htd (by simp)
            · show Function.update s.pc i
                (.done (.exc (classifyRefreshExc (.tokenRefreshExc "Failed to get bullet_token"))))
                  i = _
              rw [Function.update_same, hout]
              rfl
            · intro j hj
              dsimp only [finalizeErr]
              rw [Function.update_noteq hj]
              rcases hoth j hj with h | h
              · exact .inl h
              · exact .inr (.inl h)
          · have hout : refreshOutcome env tok = .ok (mkTokenData tok gt b) := by
              simp [refreshOutcome, hgt, hgne, henv0, hbemp]
            rw [stepR_bullet_ok env true tok n s i 0 gt b hi hpce henv hbemp]
            right; right
            refine ⟨rfl, hcur, hnc, ?_, ?_, by simp [finalizeErr, hg1], ?_, ?_, i, hi, ?_, ?_⟩
            · show Function.update s.cycles 0 ⟨true, none⟩ 0 = _
              rw [Function.update_same, hout]
              rfl
            · intro c hc
              show Function.update s.cycles 0 _ c = _
              rw [Function.update_noteq hc]
              exact hcy c
            · show s.bulletCalls + 1 = bulletCallsOf env
              rw [hb]
              simp [bulletCallsOf, hgt, hgne]
            · intro td htd
              rw [hout] at htd
              have : mkTokenData tok gt b = td := by injection htd
              subst this
              simp [tokensOf, mkTokenData]
            · show Function.update s.pc i (.done (.ok (some (mkTokenData tok gt b)))) i = _
              rw [Function.update_same, hout]
              rfl
            · intro j hj
              dsimp only [finalizeErr]
              rw [Function.update_noteq hj]
              rcases hoth j hj with h | h
              · exact .inl h
              · exact .inr (.inl h)
    · -- another caller steps while cycle 0 runs
      rcases hoth i hie with hpci | hpci
      · rw [stepR_entry_join env true tok n s i 0 hi hpci rfl hfl hcur]
        right; left
        refine ⟨hfl, hcur, hnc, hcy, hb, e, he, ?_, ?_⟩
        · rcases hsub with ⟨hpce, hg0⟩ | ⟨gt, hpce, hg1, hgt, hgne⟩
          · left
            refine ⟨?_, hg0⟩
            show Function.update s.pc i (.waitCycle 0) e = _
            rw [Function.update_noteq (Ne.symm hie)]
            exact hpce
          · right
            refine ⟨gt, ?_, hg1, hgt, hgne⟩
            show Function.update s.pc i (.waitCycle 0) e = _
            rw [Function.update_noteq (Ne.symm hie)]
            exact hpce
        · intro j hj
          dsimp only
          rcases eq_or_ne j i with rfl | hji
          · rw [Function.update_same]
            exact .inr rfl
          · rw [Function.update_noteq hji]
            exact hoth j hj
      · have hev : (s.cycles 0).eventSet = false := by rw [hcy 0]
        rw [stepR_wait_pending env true tok n s i 0 hi hpci hev]
        exact .inr (.inl ⟨hfl, hcur, hnc, hcy, hb, e, he, hsub, hoth⟩)
  · -- Phase C
    obtain ⟨hfl, hcur, hnc, hcy0, hcy, hg, hbc, hst, e, he, hpce, hoth⟩ := hC
    rcases eq_or_ne i e with rfl | hie
    · rw [stepR_eq_done env true tok n s i _ hi hpce]
      exact .inr (.inr ⟨hfl, hcur, hnc, hcy0, hcy, hg, hbc, hst, i, hi, hpce, hoth⟩)
    · rcases hoth i hie with hpci | hpci | hpci
      · rcases hconc hi hpci with h | h
        · rw [hfl] at h
          exact absurd h (by simp)
        · rw [hnc] at h
          exact absurd h (by simp)
      · have hev : (s.cycles 0).eventSet = true := by rw [hcy0]
        rw [stepR_wait_wake env true tok n s i 0 hi hpci hev]
        right; right
        refine ⟨hfl, hcur, hnc, hcy0, hcy, hg, hbc, hst, e, he, ?_, ?_⟩
        · show Function.update s.pc i (.done (cycleWaiterRes (s.cycles 0))) e = _
          rw [Function.update_noteq (Ne.symm hie)]
          exact hpce
        · intro j hj
          dsimp only
          rcases eq_or_ne j i with rfl | hji
          · rw [Function.update_same, hcy0, cycleWaiterRes_errOf]
            exact .inr (.inr rfl)
          · rw [Function.update_noteq hji]
            exact hoth j hj
      · rw [stepR_eq_done env true tok n s i _ hi hpci]
        exact .inr (.inr ⟨hfl, hcur, hnc, hcy0, hcy, hg, hbc, hst, e, he, hpce, hoth⟩)

theorem initR_PhaseA (t0 : SelfTokens) : PhaseA (initR t0) :=
  ⟨rfl, rfl, rfl, fun _ => rfl, rfl, rfl, fun _ => rfl⟩

theorem runR_InvC1 (env : RefreshEnv) (tok : String) (n : Nat) (t0 : SelfTokens)
    (sch : List Nat) (hc : entriesConcurrent env tok n t0 sch) :
    InvC1 env tok n (runR env true tok n t0 sch) := by
  suffices h : ∀ rest done, done ++ rest = sch →
      InvC1 env tok n (runR env true tok n t0 done) →
      InvC1 env tok n (runR env true tok n t0 (done ++ rest)) by
    have := h sch [] rfl (.inl (initR_PhaseA t0))
    simpa using this
  intro rest
  induction rest with
  | nil =>
    intro done _ hd
    simpa using hd
  | cons x xs ih =>
    intro done hsch hd
    have hlen : done.length < sch.length := by
      rw [← hsch]
      simp
    have htake : sch.take done.length = done := by
      rw [← hsch]
      exact List.take_left done (x :: xs)
    have hgetD : sch.getD done.length 0 = x := by
      rw [← hsch]
      simp [List.getD_eq_getElem?_getD, List.getElem?_append_right (le_refl done.length)]
    have hstep : InvC1 env tok n (runR env true tok n t0 (done ++ [x])) := by
      have heq : runR env true tok n t0 (done ++ [x]) =
          stepR env true tok n (runR env true tok n t0 done) x := by
        simp [runR, List.foldl_append]
      rw [heq]
      apply stepR_preserves_InvC1 env tok n _ x hd
      intro _ hpc
      have hck := hc done.length hlen
      rw [htake, hgetD] at hck
      exact hck hpc
    have hre : done ++ x :: xs = (done ++ [x]) ++ xs := by simp
    rw [hre]
    exact ih (done ++ [x]) (by rw [← hsch]; simp) hstep

/-- C1 (amended): for any number n ≥ 1 of callers that invoke _refresh_tokens
concurrently while no refresh is in progress (entriesConcurrent), in any run in which
all of them complete: exactly one underlying get_gtoken call was issued (and get_bullet
exactly as often as the exchange reaches it), exactly one caller — the executor —
returns (True, token_data) carrying the refreshed bundle while every other caller
returns (True, None) sharing the coordinator's updated live tokens; and if the
exchange failed, every caller raises the very same classified error object; on
success the live token fields equal the refreshed bundle. -/
theorem c1_single_flight_refresh (env : RefreshEnv) (tok : String) (n : Nat)
    (t0 : SelfTokens) (sch : List Nat) (hn : 1 ≤ n)
    (hc : entriesConcurrent env tok n t0 sch)
    (hdone : ∀ i, i < n → ((runR env true tok n t0 sch).pc i).isDone = true) :
    (runR env true tok n t0 sch).gtokenCalls = 1 ∧
    (runR env true tok n t0 sch).bulletCalls = bulletCallsOf env ∧
    (∃ e, e < n ∧
      (runR env true tok n t0 sch).pc e = .done (execResultOf (refreshOutcome env tok)) ∧
      ∀ i, i < n → i ≠ e →
        (runR env true tok n t0 sch).pc i
          = .done (waiterResultOf (refreshOutcome env tok))) ∧
    (∀ e', refreshOutcome env tok = .error e' →
      ∀ i, i < n → (runR env true tok n t0 sch).pc i = .done (.exc e')) ∧
    (∀ td, refreshOutcome env tok = .ok td →
      (runR env true tok n t0 sch).selfTokens = tokensOf td) := by
  have hinv := runR_InvC1 env tok n t0 sch hc
  rcases hinv with hA | hB | hC
  · exfalso
    have hd0 := hdone 0 hn
    rw [hA.2.2.2.2.2.2 0] at hd0
    simp [RPC.isDone] at hd0
  · exfalso
    obtain ⟨_, _, _, _, _, e, he, hsub, _⟩ := hB
    have hde := hdone e he
    rcases hsub with ⟨hpce, _⟩ | ⟨gt, hpce, _⟩
    · rw [hpce] at hde
      simp [RPC.isDone] at hde
    · rw [hpce] at hde
      simp [RPC.isDone] at hde
  · obtain ⟨hfl, hcur, hnc, hcy0, hcy, hg, hbc, hst, e, he, hpce, hoth⟩ := hC
    have hothers : ∀ i, i < n → i ≠ e →
        (runR env true tok n t0 sch).pc i
          = .done (waiterResultOf (refreshOutcome env tok)) := by
      intro i hi hie
      rcases hoth i hie with h | h | h
      · have hd := hdone i hi
        rw [h] at hd
        simp [RPC.isDone] at hd
      · have hd := hdone i hi
        rw [h] at hd
        simp [RPC.isDone] at hd
      · exact h
    refine ⟨hg, hbc, ⟨e, he, hpce, hothers⟩, ?_, hst⟩
    intro e' he' i hi
    rcases eq_or_ne i e with rfl | hie
    · rw [hpce, he']
      rfl
    · rw [hothers i hi hie, he']
      rfl

/-- C1 witness: two concurrent callers, a successful exchange: one get_gtoken and one
get_bullet call, the executor carries the bundle, the waiter returns success without
it, and the live tokens hold the refreshed bundle. -/
theorem c1_single_flight_refresh_witness :
    (runR ⟨fun _ => .ok ⟨"at", "gt", "nick", "zh-CN", "JP", "ui"⟩, fun _ => .ok "bt"⟩
      true "sess" 2 ⟨none, none, none, "zh-CN", "JP"⟩ [0, 1, 0, 0, 1]).gtokenCalls = 1 ∧
    (runR ⟨fun _ => .ok ⟨"at", "gt", "nick", "zh-CN", "JP", "ui"⟩, fun _ => .ok "bt"⟩
      true "sess" 2 ⟨none, none, none, "zh-CN", "JP"⟩ [0, 1, 0, 0, 1]).bulletCalls
        = bulletCallsOf ⟨fun _ => .ok ⟨"at", "gt", "nick", "zh-CN", "JP", "ui"⟩,
            fun _ => .ok "bt"⟩ ∧
    (∃ e, e < 2 ∧
      (runR ⟨fun _ => .ok ⟨"at", "gt", "nick", "zh-CN", "JP", "ui"⟩, fun _ => .ok "bt"⟩
        true "sess" 2 ⟨none, none, none, "zh-CN", "JP"⟩ [0, 1, 0, 0, 1]).pc e
          = .done (execResultOf (refreshOutcome
              ⟨fun _ => .ok ⟨"at", "gt", "nick", "zh-CN", "JP", "ui"⟩,
               fun _ => .ok "bt"⟩ "sess")) ∧
      ∀ i, i < 2 → i ≠ e →
        (runR ⟨fun _ => .ok ⟨"at", "gt", "nick", "zh-CN", "JP", "ui"⟩, fun _ => .ok "bt"⟩
          true "sess" 2 ⟨none, none, none, "zh-CN", "JP"⟩ [0, 1, 0, 0, 1]).pc i
            = .done (waiterResultOf (refreshOutcome
                ⟨fun _ => .ok ⟨"at", "gt", "nick", "zh-CN", "JP", "ui"⟩,
                 fun _ => .ok "bt"⟩ "sess"))) :=
  have h := c1_single_flight_refresh
    ⟨fun _ => .ok ⟨"at", "gt", "nick", "zh-CN", "JP", "ui"⟩, fun _ => .ok "bt"⟩
    "sess" 2 ⟨none, none, none, "zh-CN", "JP"⟩ [0, 1, 0, 0, 1]
    (by decide) (by unfold entriesConcurrent; decide) (by decide)
  ⟨h.1, h.2.1, h.2.2.1⟩

/-- C1 counterexample against the claim as stated: with two callers issued
concurrently while no refresh is in progress (the claim's premises hold and the run
succeeds), the two callers do NOT complete with the same value: the executing caller
returns (True, token_data) carrying the refreshed bundle while the waiting caller
returns (True, None).  "All N calls return the same bundle" is false on the code. -/
theorem c1_counterexample :
    entriesConcurrent ⟨fun _ => .ok ⟨"at", "gt", "nick", "zh-CN", "JP", "ui"⟩,
        fun _ => .ok "bt"⟩ "sess" 2 ⟨none, none, none, "zh-CN", "JP"⟩ [0, 1, 0, 0, 1] ∧
    (∀ i, i < 2 →
      ((runR ⟨fun _ => .ok ⟨"at", "gt", "nick", "zh-CN", "JP", "ui"⟩, fun _ => .ok "bt"⟩
        true "sess" 2 ⟨none, none, none, "zh-CN", "JP"⟩ [0, 1, 0, 0, 1]).pc i).isDone
          = true) ∧
    (runR ⟨fun _ => .ok ⟨"at", "gt", "nick", "zh-CN", "JP", "ui"⟩, fun _ => .ok "bt"⟩
      true "sess" 2 ⟨none, none, none, "zh-CN", "JP"⟩ [0, 1, 0, 0, 1]).pc 0
        = .done (.ok (some ⟨"sess", "gt", "bt", "at", "zh-CN", "JP", "nick", "ui"⟩)) ∧
    (runR ⟨fun _ => .ok ⟨"at", "gt", "nick", "zh-CN", "JP", "ui"⟩, fun _ => .ok "bt"⟩
      true "sess" 2 ⟨none, none, none, "zh-CN", "JP"⟩ [0, 1, 0, 0, 1]).pc 1
        = .done (.ok none) ∧
    (runR ⟨fun _ => .ok ⟨"at", "gt", "nick", "zh-CN", "JP", "ui"⟩, fun _ => .ok "bt"⟩
      true "sess" 2 ⟨none, none, none, "zh-CN", "JP"⟩ [0, 1, 0, 0, 1]).pc 0
      ≠ (runR ⟨fun _ => .ok ⟨"at", "gt", "nick", "zh-CN", "JP", "ui"⟩, fun _ => .ok "bt"⟩
        true "sess" 2 ⟨none, none, none, "zh-CN", "JP"⟩ [0, 1, 0, 0, 1]).pc 1 := by
  refine ⟨by unfold entriesConcurrent; decide, by decide, by decide, by decide, by decide⟩

end S3A
